import Mathlib

/-! Trace printer of `stats/traceprinter.go`.

A shallow embedding of the keyword registry, the row generator, the validation,
the footers, the renderers, the dispatch on the format and the unit-scaling
template functions of `TracePrinter`, followed by the properties established
for them.

Conventions of the embedding.
* Go `string` is `String`, a slice is a `List`, a Go `int` is an `Int` lying in
  the 64-bit range (`IsGoInt`).
* A Go `map[string]string` is an association list read from the front, so that
  an assignment `m[k] = v` is a cons.
* `error` results are `Option String`: `none` is `nil`, `some msg` is an error
  with message `msg`.
* `fmt.Sprintf` and `fmt.Sscanf` belong to the Go standard library; the two
  patterns the printer uses (`p%d`, `P%d`) are modelled after the library's
  documented behaviour.
* `ScenarioStat`, `TraceStats`, `round`, `formattedLineWithDiff`,
  `NewTraceDiffer`, `DiffCountAll` and `helpers.SplitCSV` are declared outside
  `traceprinter.go`; they are taken as parameters (fields of `ScenarioStat` and
  `TraceStats`, `Deps`, an explicit split function). Where a property is about
  what they return, they are modelled after the spec (`specDeps`).
* The table, template and HTML engines are outside the repository; a renderer
  returns what it hands over to them, or the lines it prints.
* A finite `float64` is the rational number it denotes.
-/

namespace TracePrinterModel

/-! ## Standard-library behaviour used by the printer -/

/-- Width of a Go `int` on the 64-bit targets. -/
def intBits : Nat := 64

/-- Values representable by a Go `int`. -/
def IsGoInt (n : Int) : Prop := -(2 : Int) ^ (intBits - 1) ≤ n ∧ n < (2 : Int) ^ (intBits - 1)

instance (n : Int) : Decidable (IsGoInt n) := by
  unfold IsGoInt; exact inferInstance

/-- The verb `%d` applied to an integer: decimal digits, a leading `-` for
negative values, no padding. -/
def fmtD (n : Int) : String := toString n

/-- Model of `fmt.Sprintf("p%d", p)`. -/
def sprintfKey (p : Int) : String := "p" ++ fmtD p

/-- Model of `fmt.Sprintf("P%d", p)`. -/
def sprintfHeader (p : Int) : String := "P" ++ fmtD p

/-- Model of `fmt.Sprintf` with the pattern `"%s"` between double quotes: the argument between one pair of double quotes. -/
def sprintfQuoted (s : String) : String := "\"" ++ s ++ "\""

/-- Whether `sub` is an initial segment of the character list. -/
def startsWith : List Char → List Char → Bool
  | [], _ => true
  | _ :: _, [] => false
  | a :: as, b :: bs => a == b && startsWith as bs

/-- Substring search on character lists. -/
def containsChars (sub : List Char) : List Char → Bool
  | [] => sub.isEmpty
  | c :: cs => startsWith sub (c :: cs) || containsChars sub cs

/-- Model of `strings.Contains(s, substr)`. -/
def stringsContains (s substr : String) : Bool := containsChars substr.data s.data

/-- Model of `strings.Join(elems, sep)`. -/
def stringsJoin (elems : List String) (sep : String) : String := sep.intercalate elems

/-- White space as understood by the scanner of package `fmt` (`isSpace`). -/
def isSpace (c : Char) : Bool :=
  let n := c.toNat
  (0x09 ≤ n && n ≤ 0x0d) || n == 0x20 || n == 0x85 || n == 0xa0 || n == 0x1680 ||
    (0x2000 ≤ n && n ≤ 0x200a) || n == 0x2028 || n == 0x2029 || n == 0x202f ||
    n == 0x205f || n == 0x3000

/-- Model of `(*ss).SkipSpace` for `Sscanf`, where a newline is not a space: `none` is
the error "unexpected newline", otherwise the input left after the spaces. -/
def skipSpace : List Char → Option (List Char)
  | [] => some []
  | c :: cs =>
    if c = '\r' ∧ cs.head? = some '\n' then skipSpace cs
    else if c = '\n' then none
    else if isSpace c then skipSpace cs
    else some (c :: cs)

/-- Characters accepted while scanning a number for the verb `d`: the decimal digits. -/
def isNumberChar (c : Char) : Bool := c.isDigit

/-- Value of a list of decimal digit characters. -/
def digitsValue (cs : List Char) : Nat :=
  cs.foldl (fun acc c => 10 * acc + (c.toNat - '0'.toNat)) 0

/-- Model of `strconv.ParseInt(tok, 10, 64)` on a token made of an optional sign followed
by the scanned characters: an underscore is a syntax error in base 10, a value outside the
64-bit range is a range error. -/
def parseInt (neg : Bool) (body : List Char) : Option Int :=
  if body.any (fun c => c == '_') then none
  else
    let un := digitsValue body
    let cutoff := 2 ^ (intBits - 1)
    if !neg && un ≥ cutoff then none
    else if neg && un > cutoff then none
    else some (if neg then -(un : Int) else (un : Int))

/-- Model of `(*ss).scanInt` for the verb `d`: skip spaces, fail at the end of input,
accept one sign, then the longest run of decimal digits. -/
def scanInt (input : List Char) : Option Int :=
  match skipSpace input with
  | none => none
  | some [] => none
  | some (c :: cs) =>
    let neg := c == '-'
    let rest := if c = '+' ∨ c = '-' then cs else c :: cs
    let body := rest.takeWhile isNumberChar
    if body.isEmpty then none else parseInt neg body

/-- Model of `fmt.Sscanf(str, "p%d", &n)`: `none` when the call reports an error, else
the integer stored into `n`. Input left after the number is not an error. -/
def sscanfKey (str : String) : Option Int :=
  match str.data with
  | [] => none
  | c :: cs => if c = 'p' then (skipSpace cs).bind scanInt else none

/-! ## Keyword registry -/

/-- Canonical keyword list (`traceKeywords`). -/
def traceKeywords (percentiles : List Int) : List String :=
  let s1 := ["count", "uri_method_status", "min", "max", "sum", "avg"]
  let s2 := ["stddev", "min_body", "max_body", "sum_body", "avg_body"]
  let sp := percentiles.foldl (fun sp p => sp ++ [sprintfKey p]) []
  let ss := ["trace_id_sample"]
  (((([] ++ s1) ++ sp) ++ s2) ++ ss)

/-- Canonical header list (`traceDefaultHeaders`). -/
def traceDefaultHeaders (percentiles : List Int) : List String :=
  let s1 := ["Count", "UriMethodStatus", "Min", "Max", "Sum", "Avg"]
  let s2 := ["Stddev", "Min(Body)", "Max(Body)", "Sum(Body)", "Avg(Body)"]
  let sp := percentiles.foldl (fun sp p => sp ++ [sprintfHeader p]) []
  let ss := ["TraceIdSample"]
  (((([] ++ s1) ++ sp) ++ s2) ++ ss)

/-- A Go `map[string]string`. -/
abbrev GoMap := List (String × String)

/-- Lookup `m[k]` with the presence flag: `none` when the key is absent. -/
def GoMap.get? : GoMap → String → Option String
  | [], _ => none
  | (k', v) :: rest, k => if k' = k then some v else GoMap.get? rest k

/-- Lookup `m[k]`: the zero value `""` when the key is absent. -/
def GoMap.get (m : GoMap) (k : String) : String := (m.get? k).getD ""

/-- Assignment `m[k] = v`. -/
def GoMap.set (m : GoMap) (k v : String) : GoMap := (k, v) :: m

/-- Keyword to header mapping (`traceHeadersMap`). -/
def traceHeadersMap (percentiles : List Int) : GoMap :=
  let headers : GoMap := [
    ("count", "Count"),
    ("uri_method_status", "UriMethodStatus"),
    ("min", "Min"),
    ("max", "Max"),
    ("sum", "Sum"),
    ("avg", "Avg"),
    ("stddev", "Stddev"),
    ("min_body", "Min(Body)"),
    ("max_body", "Max(Body)"),
    ("sum_body", "Sum(Body)"),
    ("avg_body", "Avg(Body)"),
    ("trace_id_sample", "TraceIdSample")]
  percentiles.foldl (fun headers p => headers.set (sprintfKey p) (sprintfHeader p)) headers

/-- Options of the printer (`TracePrintOptions`). -/
structure TracePrintOptions where
  noHeaders : Bool
  showFooters : Bool
  decodeUri : Bool
  paginationLimit : Int
deriving DecidableEq

/-- The printer (`TracePrinter`); the writer is left out. -/
structure TracePrinter where
  keywords : List String
  format : String
  percentiles : List Int
  printOptions : TracePrintOptions
  headers : List String
  headersMap : GoMap
  all : Bool
deriving DecidableEq

/-- The loop of `NewTracePrinter` over the split selection: each key appends its
header (the zero value when unknown); the key `all` replaces keywords and
headers by the canonical lists, sets the flag and leaves the loop. -/
def newTracePrinterLoop (p : TracePrinter) : List String → TracePrinter
  | [] => p
  | key :: rest =>
    let p := { p with headers := p.headers ++ [p.headersMap.get key] }
    if key = "all" then
      { p with
        keywords := traceKeywords p.percentiles
        headers := traceDefaultHeaders p.percentiles
        all := true }
    else newTracePrinterLoop p rest

/-- Constructor `NewTracePrinter`; `SplitCSV` stands for `helpers.SplitCSV`. -/
def NewTracePrinter (SplitCSV : String → List String) (val format : String)
    (percentiles : List Int) (printOptions : TracePrintOptions) : TracePrinter :=
  let p : TracePrinter :=
    { keywords := []
      format := format
      percentiles := percentiles
      printOptions := printOptions
      headers := []
      headersMap := traceHeadersMap percentiles
      all := false }
  if val = "all" then
    { p with
      keywords := traceKeywords percentiles
      headers := traceDefaultHeaders percentiles
      all := true }
  else
    let p := { p with keywords := SplitCSV val }
    newTracePrinterLoop p p.keywords

/-- Method `Validate`: `none` is a nil error. -/
def TracePrinter.Validate (p : TracePrinter) : Option String :=
  if p.all then none
  else
    let invalids := p.keywords.foldl
      (fun invalids key =>
        match p.headersMap.get? key with
        | none => invalids ++ [key]
        | some _ => invalids) []
    if invalids.length > 0 then
      some ("invalid keywords: " ++ stringsJoin invalids ",")
    else none

/-! ## Collaborators declared outside `traceprinter.go` -/

/-- Pieces of a character list between commas. -/
def splitOnComma : List Char → List (List Char)
  | [] => [[]]
  | c :: cs =>
    match splitOnComma cs with
    | [] => [[c]]
    | piece :: rest => if c = ',' then [] :: piece :: rest else (c :: piece) :: rest

/-- A character list without the spaces at its two ends. -/
def trimSpaces (cs : List Char) : List Char :=
  ((cs.dropWhile (fun c => c == ' ')).reverse.dropWhile (fun c => c == ' ')).reverse

/-- Modelled from the spec: `helpers.SplitCSV` is declared in package `helpers`,
outside `traceprinter.go`. It "splits `selection` on commas into an ordered
keyword sequence (whitespace trimming permitted)": the pieces between commas,
each without the spaces at its ends. The properties below hold for every split
function; this one serves as a concrete instance. -/
def SplitCSV (val : String) : List String :=
  (splitOnComma val.data).map (fun piece => String.mk (trimSpaces piece))

/-- A Go `map[string]int`, read from the front. -/
abbrev CountMap := List (String × Int)

/-- Lookup `m[k]` in a `map[string]int`: the zero value `0` when the key is absent. -/
def CountMap.get : CountMap → String → Int
  | [], _ => 0
  | (k', v) :: rest, k => if k' = k then v else CountMap.get rest k

/-- What the printer reads from a `*ScenarioStat`: the field
`TraceUriMethodStatus` and the results of the accessor methods it calls. `F`
stands for `float64`. `RandomTraceID` is the identifier drawn for the record.
`Cnt` is the request count, which the differ reads. -/
structure ScenarioStat (F : Type) where
  TraceUriMethodStatus : String
  Cnt : Int
  StrCount : String
  UriWithOptions : Bool → String
  MinResponseTime : F
  MaxResponseTime : F
  SumResponseTime : F
  AvgResponseTime : F
  StddevResponseTime : F
  MinResponseBodyBytes : F
  MaxResponseBodyBytes : F
  SumResponseBodyBytes : F
  AvgResponseBodyBytes : F
  PNResponseTime : Int → F
  RandomTraceID : String

/-- Results of the methods of the differ returned by `NewTraceDiffer`. -/
structure TraceDiffer where
  DiffCnt : String
  DiffMinResponseTime : String
  DiffMaxResponseTime : String
  DiffSumResponseTime : String
  DiffAvgResponseTime : String
  DiffStddevResponseTime : String
  DiffMinResponseBodyBytes : String
  DiffMaxResponseBodyBytes : String
  DiffSumResponseBodyBytes : String
  DiffAvgResponseBodyBytes : String
  DiffPNResponseTime : Int → String

/-- Package-level functions of `stats` that `traceprinter.go` calls and does not
declare. -/
structure Deps (F : Type) where
  round : F → String
  formattedLineWithDiff : String → String → String
  NewTraceDiffer : ScenarioStat F → ScenarioStat F → TraceDiffer
  DiffCountAll : CountMap → CountMap → GoMap

/-! ## Row generator -/

/-- One iteration of the loop of `GenerateTraceLine`: the `switch` on the
keyword, appending to `line`; an unparseable keyword appends nothing. -/
def traceLineStep {F : Type} (E : Deps F) (p : TracePrinter) (s : ScenarioStat F)
    (quoteUri : Bool) (line : List String) (kw : String) : List String :=
  if kw = "count" then line ++ [s.StrCount]
  else if kw = "uri_method_status" then
    let uriMethodStatus := s.UriWithOptions p.printOptions.decodeUri
    let uriMethodStatus :=
      if quoteUri && stringsContains s.TraceUriMethodStatus "," then
        sprintfQuoted s.TraceUriMethodStatus
      else uriMethodStatus
    line ++ [uriMethodStatus]
  else if kw = "min" then line ++ [E.round s.MinResponseTime]
  else if kw = "max" then line ++ [E.round s.MaxResponseTime]
  else if kw = "sum" then line ++ [E.round s.SumResponseTime]
  else if kw = "avg" then line ++ [E.round s.AvgResponseTime]
  else if kw = "stddev" then line ++ [E.round s.StddevResponseTime]
  else if kw = "min_body" then line ++ [E.round s.MinResponseBodyBytes]
  else if kw = "max_body" then line ++ [E.round s.MaxResponseBodyBytes]
  else if kw = "sum_body" then line ++ [E.round s.SumResponseBodyBytes]
  else if kw = "avg_body" then line ++ [E.round s.AvgResponseBodyBytes]
  else if kw = "trace_id_sample" then
    let traceIDSample := s.RandomTraceID
    line ++ [traceIDSample]
  else
    match sscanfKey kw with
    | none => line
    | some n => line ++ [E.round (s.PNResponseTime n)]

/-- Method `GenerateTraceLine`. -/
def TracePrinter.GenerateTraceLine {F : Type} (E : Deps F) (p : TracePrinter)
    (s : ScenarioStat F) (quoteUri : Bool) : List String :=
  p.keywords.foldl (traceLineStep E p s quoteUri) []

/-- One iteration of the loop of `GenerateTraceLineWithDiff`. The `switch` has
no case for `trace_id_sample`, which therefore reaches the percentile branch. -/
def traceLineWithDiffStep {F : Type} (E : Deps F) (p : TracePrinter)
    (differ : TraceDiffer) (sTo : ScenarioStat F) (quoteUri : Bool)
    (line : List String) (kw : String) : List String :=
  if kw = "count" then line ++ [E.formattedLineWithDiff sTo.StrCount differ.DiffCnt]
  else if kw = "uri_method_status" then
    let uriMethodStatus := sTo.UriWithOptions p.printOptions.decodeUri
    let uriMethodStatus :=
      if quoteUri && stringsContains sTo.TraceUriMethodStatus "," then
        sprintfQuoted sTo.TraceUriMethodStatus
      else uriMethodStatus
    line ++ [uriMethodStatus]
  else if kw = "min" then
    line ++ [E.formattedLineWithDiff (E.round sTo.MinResponseTime) differ.DiffMinResponseTime]
  else if kw = "max" then
    line ++ [E.formattedLineWithDiff (E.round sTo.MaxResponseTime) differ.DiffMaxResponseTime]
  else if kw = "sum" then
    line ++ [E.formattedLineWithDiff (E.round sTo.SumResponseTime) differ.DiffSumResponseTime]
  else if kw = "avg" then
    line ++ [E.formattedLineWithDiff (E.round sTo.AvgResponseTime) differ.DiffAvgResponseTime]
  else if kw = "stddev" then
    line ++ [E.formattedLineWithDiff (E.round sTo.StddevResponseTime)
      differ.DiffStddevResponseTime]
  else if kw = "min_body" then
    line ++ [E.formattedLineWithDiff (E.round sTo.MinResponseBodyBytes)
      differ.DiffMinResponseBodyBytes]
  else if kw = "max_body" then
    line ++ [E.formattedLineWithDiff (E.round sTo.MaxResponseBodyBytes)
      differ.DiffMaxResponseBodyBytes]
  else if kw = "sum_body" then
    line ++ [E.formattedLineWithDiff (E.round sTo.SumResponseBodyBytes)
      differ.DiffSumResponseBodyBytes]
  else if kw = "avg_body" then
    line ++ [E.formattedLineWithDiff (E.round sTo.AvgResponseBodyBytes)
      differ.DiffAvgResponseBodyBytes]
  else
    match sscanfKey kw with
    | none => line
    | some n =>
      line ++ [E.formattedLineWithDiff (E.round (sTo.PNResponseTime n))
        (differ.DiffPNResponseTime n)]

/-- Method `GenerateTraceLineWithDiff`. -/
def TracePrinter.GenerateTraceLineWithDiff {F : Type} (E : Deps F) (p : TracePrinter)
    (sFrom sTo : ScenarioStat F) (quoteUri : Bool) : List String :=
  let differ := E.NewTraceDiffer sFrom sTo
  p.keywords.foldl (traceLineWithDiffStep E p differ sTo quoteUri) []

/-! ## Snapshots, lookup of the "from" record, footers -/

/-- What the printer reads from a `*TraceStats`: the records in stored order and
the result of `CountAll()`. -/
structure TraceStats (F : Type) where
  ScenarioStats : List (ScenarioStat F)
  CountAll : CountMap

/-- The loop of `findTraceStatFrom` over the records of the "from" snapshot. -/
def findTraceStatFromLoop {F : Type} (tsTo : ScenarioStat F) :
    List (ScenarioStat F) → Option (ScenarioStat F)
  | [] => none
  | sFrom :: rest =>
    if sFrom.TraceUriMethodStatus = tsTo.TraceUriMethodStatus then some sFrom
    else findTraceStatFromLoop tsTo rest

/-- Function `findTraceStatFrom`: `none` is the nil result. -/
def findTraceStatFrom {F : Type} (tsFrom : TraceStats F) (tsTo : ScenarioStat F) :
    Option (ScenarioStat F) :=
  findTraceStatFromLoop tsTo tsFrom.ScenarioStats

/-- Method `GenerateTraceFooter`; `fmt.Sprint` of an `int` is its decimal form. -/
def TracePrinter.GenerateTraceFooter (p : TracePrinter) (counts : CountMap) : List String :=
  p.keywords.foldl
    (fun line kw =>
      if kw = "count" then line ++ [fmtD (counts.get "count")]
      else line ++ [""]) []

/-- Method `GenerateTraceFooterWithDiff`. -/
def TracePrinter.GenerateTraceFooterWithDiff {F : Type} (E : Deps F) (p : TracePrinter)
    (countsFrom countsTo : CountMap) : List String :=
  let counts := E.DiffCountAll countsFrom countsTo
  p.keywords.foldl
    (fun line kw =>
      if kw = "count" then
        line ++ [E.formattedLineWithDiff (fmtD (countsTo.get "count")) (counts.get "count")]
      else line ++ [""]) []

/-! ## Renderers

The table, markdown and HTML renderers hand their data to engines outside the
repository's `stats` package; the model returns what is handed over. The TSV and
CSV renderers print lines; the model returns the lines in order. -/

/-- State of a `tablewriter.Table` as far as the printer sets it. -/
structure Table where
  autoWrapText : Bool
  autoMergeCells : Bool
  markdownBorders : Bool
  centerSeparator : String
  alignLeft : Bool
  footerAlignLeft : Bool
  header : List String
  rows : List (List String)
  footer : Option (List String)
deriving DecidableEq

/-- A fresh table (`tablewriter.NewWriter`). -/
def tablewriterNewWriter : Table :=
  { autoWrapText := true
    autoMergeCells := false
    markdownBorders := false
    centerSeparator := "+"
    alignLeft := false
    footerAlignLeft := false
    header := []
    rows := []
    footer := none }

/-- Method `Append` of the table. -/
def Table.Append (table : Table) (data : List String) : Table :=
  { table with rows := table.rows ++ [data] }

/-- Method `printTraceTable`: the table at the time `Render` is called. -/
def TracePrinter.printTraceTable {F : Type} (E : Deps F) (p : TracePrinter)
    (tsFrom : TraceStats F) (tsTo : Option (TraceStats F)) : Table :=
  let table := tablewriterNewWriter
  let table := { table with autoWrapText := false }
  let table := { table with header := p.headers }
  let table :=
    match tsTo with
    | none =>
      tsFrom.ScenarioStats.foldl
        (fun (table : Table) s =>
          let data := p.GenerateTraceLine E s false
          table.Append data) table
    | some tsTo =>
      tsTo.ScenarioStats.foldl
        (fun (table : Table) sTo =>
          let data :=
            match findTraceStatFrom tsFrom sTo with
            | none => p.GenerateTraceLine E sTo false
            | some sFrom => p.GenerateTraceLineWithDiff E sFrom sTo false
          table.Append data) table
  let table :=
    if p.printOptions.showFooters then
      let footer :=
        match tsTo with
        | none => p.GenerateTraceFooter tsFrom.CountAll
        | some tsTo => p.GenerateTraceFooterWithDiff E tsFrom.CountAll tsTo.CountAll
      { table with footer := some footer, footerAlignLeft := true }
    else table
  { table with alignLeft := true }

/-- Method `printTraceMarkdown`: the table at the time `Render` is called. The
footer is appended as a row. -/
def TracePrinter.printTraceMarkdown {F : Type} (E : Deps F) (p : TracePrinter)
    (tsFrom : TraceStats F) (tsTo : Option (TraceStats F)) : Table :=
  let table := tablewriterNewWriter
  let table := { table with header := p.headers }
  let table := { table with autoWrapText := false }
  let table := { table with autoMergeCells := true }
  let table := { table with markdownBorders := true }
  let table := { table with centerSeparator := "|" }
  let table :=
    match tsTo with
    | none =>
      tsFrom.ScenarioStats.foldl
        (fun (table : Table) s =>
          let data := p.GenerateTraceLine E s false
          table.Append data) table
    | some tsTo =>
      tsTo.ScenarioStats.foldl
        (fun (table : Table) sTo =>
          let data :=
            match findTraceStatFrom tsFrom sTo with
            | none => p.GenerateTraceLine E sTo false
            | some sFrom => p.GenerateTraceLineWithDiff E sFrom sTo false
          table.Append data) table
  let table :=
    if p.printOptions.showFooters then
      let footer :=
        match tsTo with
        | none => p.GenerateTraceFooter tsFrom.CountAll
        | some tsTo => p.GenerateTraceFooterWithDiff E tsFrom.CountAll tsTo.CountAll
      table.Append footer
    else table
  { table with alignLeft := true }

/-- Method `printTraceTSV`: the printed lines. -/
def TracePrinter.printTraceTSV {F : Type} (E : Deps F) (p : TracePrinter)
    (tsFrom : TraceStats F) (tsTo : Option (TraceStats F)) : List String :=
  let out := if !p.printOptions.noHeaders then [stringsJoin p.headers "\t"] else []
  match tsTo with
  | none =>
    tsFrom.ScenarioStats.foldl
      (fun out s =>
        let data := p.GenerateTraceLine E s false
        out ++ [stringsJoin data "\t"]) out
  | some tsTo =>
    tsTo.ScenarioStats.foldl
      (fun out sTo =>
        let data :=
          match findTraceStatFrom tsFrom sTo with
          | none => p.GenerateTraceLine E sTo false
          | some sFrom => p.GenerateTraceLineWithDiff E sFrom sTo false
        out ++ [stringsJoin data "\t"]) out

/-- Method `printTraceCSV`: the printed lines. -/
def TracePrinter.printTraceCSV {F : Type} (E : Deps F) (p : TracePrinter)
    (tsFrom : TraceStats F) (tsTo : Option (TraceStats F)) : List String :=
  let out := if !p.printOptions.noHeaders then [stringsJoin p.headers ","] else []
  match tsTo with
  | none =>
    tsFrom.ScenarioStats.foldl
      (fun out s =>
        let data := p.GenerateTraceLine E s true
        out ++ [stringsJoin data ","]) out
  | some tsTo =>
    tsTo.ScenarioStats.foldl
      (fun out sTo =>
        let data :=
          match findTraceStatFrom tsFrom sTo with
          | none => p.GenerateTraceLine E sTo false
          | some sFrom => p.GenerateTraceLineWithDiff E sFrom sTo false
        out ++ [stringsJoin data ","]) out

/-- Arguments of a call to `html.RenderTableWithGridJS`. -/
structure GridJSCall where
  title : String
  headers : List String
  data : List (List String)
  paginationLimit : Int
deriving DecidableEq

/-- Method `printTraceHTML`: the call whose result is printed. -/
def TracePrinter.printTraceHTML {F : Type} (E : Deps F) (p : TracePrinter)
    (tsFrom : TraceStats F) (tsTo : Option (TraceStats F)) : GridJSCall :=
  let data : List (List String) :=
    match tsTo with
    | none =>
      tsFrom.ScenarioStats.foldl (fun data s => data ++ [p.GenerateTraceLine E s true]) []
    | some tsTo =>
      tsTo.ScenarioStats.foldl
        (fun data sTo =>
          match findTraceStatFrom tsFrom sTo with
          | none => data ++ [p.GenerateTraceLine E sTo false]
          | some sFrom => data ++ [p.GenerateTraceLineWithDiff E sFrom sTo false]) []
  { title := "alp", headers := p.headers, data := data,
    paginationLimit := p.printOptions.paginationLimit }

/-- Method `printTracePretty`, reduced to the snapshots the template `pretty.tmpl`
is executed with, in order. -/
def TracePrinter.printTracePretty {F : Type} (_p : TracePrinter)
    (tsFrom : TraceStats F) (tsTo : Option (TraceStats F)) : List (TraceStats F) :=
  match tsTo with
  | none => [tsFrom]
  | some tsTo =>
    tsTo.ScenarioStats.foldl
      (fun out sTo =>
        match findTraceStatFrom tsFrom sTo with
        | none => out ++ [tsTo]
        | some _ => out ++ [tsTo]) []

/-- What a call of `Print` did: which renderer ran, with its result. -/
inductive Rendered (F : Type) where
  | pretty (executions : List (TraceStats F))
  | table (t : Table)
  | markdown (t : Table)
  | tsv (lines : List String)
  | csv (lines : List String)
  | html (call : GridJSCall)

/-- Method `Print`: `none` when the `switch` on the format matches no case, so
that no renderer runs. -/
def TracePrinter.Print {F : Type} (E : Deps F) (p : TracePrinter)
    (ts : TraceStats F) (tsTo : Option (TraceStats F)) : Option (Rendered F) :=
  if p.format = "pretty" then some (Rendered.pretty (p.printTracePretty ts tsTo))
  else if p.format = "table" then some (Rendered.table (p.printTraceTable E ts tsTo))
  else if p.format = "md" ∨ p.format = "markdown" then
    some (Rendered.markdown (p.printTraceMarkdown E ts tsTo))
  else if p.format = "tsv" then some (Rendered.tsv (p.printTraceTSV E ts tsTo))
  else if p.format = "csv" then some (Rendered.csv (p.printTraceCSV E ts tsTo))
  else if p.format = "html" then some (Rendered.html (p.printTraceHTML E ts tsTo))
  else none

/-! ## Concrete instances used to evaluate the definitions -/

/-- A record over integer-valued statistics with the given identity. -/
def sampleStat (identity : String) (count : Int) : ScenarioStat Int where
  TraceUriMethodStatus := identity
  Cnt := count
  StrCount := fmtD count
  UriWithOptions := fun _ => identity
  MinResponseTime := 1
  MaxResponseTime := 9
  SumResponseTime := 20
  AvgResponseTime := 5
  StddevResponseTime := 2
  MinResponseBodyBytes := 10
  MaxResponseBodyBytes := 90
  SumResponseBodyBytes := 200
  AvgResponseBodyBytes := 50
  PNResponseTime := fun n => n
  RandomTraceID := "trace-0001"

/-- An instance of the collaborators over integer-valued statistics. -/
def sampleDeps : Deps Int where
  round := fmtD
  formattedLineWithDiff := fun val diff => val ++ " (" ++ diff ++ ")"
  NewTraceDiffer := fun _ _ =>
    { DiffCnt := "+0"
      DiffMinResponseTime := "+0"
      DiffMaxResponseTime := "+0"
      DiffSumResponseTime := "+0"
      DiffAvgResponseTime := "+0"
      DiffStddevResponseTime := "+0"
      DiffMinResponseBodyBytes := "+0"
      DiffMaxResponseBodyBytes := "+0"
      DiffSumResponseBodyBytes := "+0"
      DiffAvgResponseBodyBytes := "+0"
      DiffPNResponseTime := fun _ => "+0" }
  DiffCountAll := fun _ _ => [("count", "+0")]

/-- Default print options. -/
def sampleOptions : TracePrintOptions :=
  { noHeaders := false, showFooters := false, decodeUri := false, paginationLimit := 0 }

/-! ## Unit scaling of the pretty template

A finite `float64` is modelled by the rational number it denotes. Division by a power of
two is exact on such values; the rounded product of two values is a parameter. -/

/-- A digit string padded on the left with zeros up to a width. -/
def padZeros (width : Nat) (cs : List Char) : List Char :=
  List.replicate (width - cs.length) '0' ++ cs

/-- Decimal form with `prec` decimals of the fraction `num / den`, rounded to the nearest
value, ties to even, with a leading `-` when `neg` is set. -/
def fmtFixed (prec : Nat) (neg : Bool) (num den : Nat) : String :=
  let scaled := num * 10 ^ prec
  let q := scaled / den
  let r := scaled % den
  let n := if 2 * r > den ∨ (2 * r = den ∧ q % 2 = 1) then q + 1 else q
  let ip := toString (n / 10 ^ prec)
  let body :=
    if prec = 0 then ip
    else ip ++ "." ++ String.mk (padZeros prec (toString (n % 10 ^ prec)).data)
  if neg then "-" ++ body else body

/-- Model of `fmt.Sprintf` with the verb `%.<prec>f` on a finite `float64`. -/
def sprintfF (prec : Nat) (f : ℚ) : String :=
  fmtFixed prec (decide (f < 0)) f.num.natAbs f.den

/-- Conversion of a non-negative integer to `float64` (53-bit significand, round to nearest,
ties to even), as the integer value of the result. -/
def float64OfNat (v : Nat) : Nat :=
  if v < 2 ^ 53 then v
  else
    let k := Nat.log2 v - 52
    let m := v / 2 ^ k
    let r := v % 2 ^ k
    let m := if 2 * r > 2 ^ k ∨ (2 * r = 2 ^ k ∧ m % 2 = 1) then m + 1 else m
    m * 2 ^ k

/-- Conversion of an integer to `float64`. -/
def float64OfInt (v : Int) : ℚ :=
  if v < 0 then -((float64OfNat v.natAbs : Nat) : ℚ) else ((float64OfNat v.natAbs : Nat) : ℚ)

/-- The dynamic types `anyToFloat64` distinguishes; a pointer is modelled by the value it
points to, and `other` stands for every other type. -/
inductive AnyNum where
  | int (v : Int)
  | uint (v : Nat)
  | uint64 (v : Nat)
  | float64 (f : ℚ)
  | other

/-- Function `anyToFloat64`: an unknown type leaves the zero value. -/
def anyToFloat64 : AnyNum → ℚ
  | AnyNum.int v => float64OfInt v
  | AnyNum.uint v => ((float64OfNat v : Nat) : ℚ)
  | AnyNum.uint64 v => ((float64OfNat v : Nat) : ℚ)
  | AnyNum.float64 f => f
  | AnyNum.other => 0

/-- The `float64` constant `0.000000001`. -/
def lit1eMinus9 : ℚ := 4835703278458517 / 2 ^ 82

/-- The `float64` constant `0.000001`. -/
def lit1eMinus6 : ℚ := 4722366482869645 / 2 ^ 72

/-- The `float64` constant `0.001`. -/
def lit1eMinus3 : ℚ := 1152921504606847 / 2 ^ 60

/-- Template function `shortTime`; `fmul` is the `float64` product. -/
def shortTime (fmul : ℚ → ℚ → ℚ) (v : AnyNum) : String :=
  let f := anyToFloat64 v
  if f < lit1eMinus9 then sprintfF 0 f
  else if f < lit1eMinus6 then sprintfF 1 (fmul f 1000000000) ++ "ns"
  else if f < lit1eMinus3 then sprintfF 1 (fmul f 1000000) ++ "us"
  else if f < 1 then sprintfF 1 (fmul f 1000) ++ "ms"
  else sprintfF 2 f ++ "s"

/-- Template function `shortByteInt`. -/
def shortByteInt (v : AnyNum) : String :=
  let f := anyToFloat64 v
  if f ≥ 1024 * 1024 * 1024 then sprintfF 0 (f / (1024 * 1024 * 1024)) ++ "G"
  else if f ≥ 1024 * 1024 then sprintfF 0 (f / (1024 * 1024)) ++ "M"
  else if f ≥ 1024 then sprintfF 0 (f / 1024) ++ "k"
  else sprintfF 0 f

/-- Template function `shortByte`. -/
def shortByte (v : AnyNum) : String :=
  let f := anyToFloat64 v
  if f ≥ 1024 * 1024 * 1024 then sprintfF 2 (f / (1024 * 1024 * 1024)) ++ "G"
  else if f ≥ 1024 * 1024 then sprintfF 2 (f / (1024 * 1024)) ++ "M"
  else if f ≥ 1024 then sprintfF 2 (f / 1024) ++ "k"
  else if f = 0 then sprintfF 0 f
  else sprintfF 2 f

/-- Number of digits that follow the first `.` of a string, `0` when it has none. -/
def decimalPlaces (s : String) : Nat :=
  match s.data.dropWhile (fun c => c != '.') with
  | [] => 0
  | _ :: rest => (rest.takeWhile Char.isDigit).length

/-! ## The diff collaborators as the spec describes them -/

/-- Modelled from the spec: `formattedLineWithDiff` is declared in package `stats`, outside
`traceprinter.go`. Every numeric cell becomes the "to" value, a space, and the delta
between parentheses, where "a zero delta is still shown with an explicit sign". -/
def specFormattedLineWithDiff (val diff : String) : String := val ++ " (" ++ diff ++ ")"

/-- The verb `%+d`: the decimal form with an explicit sign. -/
def fmtSignedD (n : Int) : String := if n < 0 then fmtD n else "+" ++ fmtD n

/-- Subtraction of `float64` values, and the rounding of `round` with an explicit sign. -/
structure SignedOps (F : Type) where
  sub : F → F → F
  roundSigned : F → String

/-- Modelled from the spec: `NewTraceDiffer` and the methods of the differ are declared in
package `stats`, outside `traceprinter.go`. The "delta is computed as `to.field − from.field`,
formatted with an explicit sign and the same rounding as the plain value". -/
def specNewTraceDiffer {F : Type} (N : SignedOps F) (sFrom sTo : ScenarioStat F) :
    TraceDiffer where
  DiffCnt := fmtSignedD (sTo.Cnt - sFrom.Cnt)
  DiffMinResponseTime := N.roundSigned (N.sub sTo.MinResponseTime sFrom.MinResponseTime)
  DiffMaxResponseTime := N.roundSigned (N.sub sTo.MaxResponseTime sFrom.MaxResponseTime)
  DiffSumResponseTime := N.roundSigned (N.sub sTo.SumResponseTime sFrom.SumResponseTime)
  DiffAvgResponseTime := N.roundSigned (N.sub sTo.AvgResponseTime sFrom.AvgResponseTime)
  DiffStddevResponseTime :=
    N.roundSigned (N.sub sTo.StddevResponseTime sFrom.StddevResponseTime)
  DiffMinResponseBodyBytes :=
    N.roundSigned (N.sub sTo.MinResponseBodyBytes sFrom.MinResponseBodyBytes)
  DiffMaxResponseBodyBytes :=
    N.roundSigned (N.sub sTo.MaxResponseBodyBytes sFrom.MaxResponseBodyBytes)
  DiffSumResponseBodyBytes :=
    N.roundSigned (N.sub sTo.SumResponseBodyBytes sFrom.SumResponseBodyBytes)
  DiffAvgResponseBodyBytes :=
    N.roundSigned (N.sub sTo.AvgResponseBodyBytes sFrom.AvgResponseBodyBytes)
  DiffPNResponseTime := fun n =>
    N.roundSigned (N.sub (sTo.PNResponseTime n) (sFrom.PNResponseTime n))

/-- Modelled from the spec: `DiffCountAll` is declared in package `stats`, outside
`traceprinter.go`. "Footer diffing mirrors row diffing for the `count` column's aggregate
totals only". -/
def specDiffCountAll (countsFrom countsTo : CountMap) : GoMap :=
  [("count", fmtSignedD (countsTo.get "count" - countsFrom.get "count"))]

/-- The collaborators as the spec describes them, over a rounding function and signed
operations on `float64`. -/
def specDeps {F : Type} (round : F → String) (N : SignedOps F) : Deps F where
  round := round
  formattedLineWithDiff := specFormattedLineWithDiff
  NewTraceDiffer := specNewTraceDiffer N
  DiffCountAll := specDiffCountAll

/-- Signed operations over integer-valued statistics. -/
def sampleSignedOps : SignedOps Int where
  sub := fun a b => a - b
  roundSigned := fmtSignedD

/-! ## Auxiliary definitions for the proofs -/

/-- Decimal digits of a natural number, most significant first. -/
def decDigits (n : Nat) : List Char :=
  if n < 10 then [Nat.digitChar n] else decDigits (n / 10) ++ [Nat.digitChar (n % 10)]
decreasing_by omega

/-- The ten digit characters. -/
def IsDecChar (c : Char) : Prop := ∃ d, d < 10 ∧ c = Nat.digitChar d

/-- The twelve keywords with a case of their own in `GenerateTraceLine`, which
are also the keys of the static part of `traceHeadersMap`. -/
def staticKeys : List String :=
  ["count", "uri_method_status", "min", "max", "sum", "avg", "stddev", "min_body",
    "max_body", "sum_body", "avg_body", "trace_id_sample"]

/-- The columns listed between `avg` and `stddev` (positions 6 to `6 + len(ps) - 1`)
of a canonical list built for the percentile list `ps`. -/
def percentileColumns (cols : List String) (ps : List Int) : List String :=
  (cols.drop 6).take ps.length

/-- The eleven keywords with a case of their own in `GenerateTraceLineWithDiff`. -/
def diffKeys : List String :=
  ["count", "uri_method_status", "min", "max", "sum", "avg", "stddev", "min_body",
    "max_body", "sum_body", "avg_body"]

/-- The row built for a "to" record when a "to" snapshot is given, as the loops of
the table, markdown, TSV, CSV and HTML renderers compute it. -/
def diffRowOf {F : Type} (E : Deps F) (p : TracePrinter) (tsFrom : TraceStats F)
    (sTo : ScenarioStat F) : List String :=
  match findTraceStatFrom tsFrom sTo with
  | none => p.GenerateTraceLine E sTo false
  | some sFrom => p.GenerateTraceLineWithDiff E sFrom sTo false

/-- The row of a "to" record when a "to" snapshot is given, for a value of the quote flag:
the diff row against the record found by `findTraceStatFrom`, the plain row when none is
found. -/
def rowForRecord {F : Type} (E : Deps F) (p : TracePrinter) (tsFrom : TraceStats F)
    (quoteUri : Bool) (sTo : ScenarioStat F) : List String :=
  match findTraceStatFrom tsFrom sTo with
  | none => p.GenerateTraceLine E sTo quoteUri
  | some sFrom => p.GenerateTraceLineWithDiff E sFrom sTo quoteUri

/-- The static part of `traceHeadersMap`. -/
def staticHeaders : GoMap := traceHeadersMap []

/-! ## Decimal formatting and scanning -/

theorem decDigits_small {n : Nat} (h : n < 10) : decDigits n = [Nat.digitChar n] := by
  rw [decDigits, if_pos h]

theorem decDigits_large {n : Nat} (h : ¬ n < 10) :
    decDigits n = decDigits (n / 10) ++ [Nat.digitChar (n % 10)] := by
  rw [decDigits, if_neg h]

theorem toDigitsCore_eq_decDigits (fuel : Nat) :
    ∀ (n : Nat) (ds : List Char), n < fuel →
      Nat.toDigitsCore 10 fuel n ds = decDigits n ++ ds := by
  induction fuel with
  | zero => intro n ds h; omega
  | succ fuel ih =>
    intro n ds h
    simp only [Nat.toDigitsCore]
    by_cases h0 : n / 10 = 0
    · have hn : n < 10 := by omega
      rw [if_pos h0, decDigits_small hn, Nat.mod_eq_of_lt hn]
      rfl
    · have hn : ¬ n < 10 := by omega
      rw [if_neg h0, ih (n / 10) _ (by omega), decDigits_large hn]
      simp

theorem toString_nat_data (n : Nat) : (toString n).data = decDigits n := by
  show Nat.toDigitsCore 10 (n + 1) n [] = decDigits n
  rw [toDigitsCore_eq_decDigits (n + 1) n [] (by omega)]
  simp

theorem fmtD_ofNat (m : Nat) : (fmtD (Int.ofNat m)).data = decDigits m :=
  toString_nat_data m

theorem fmtD_negSucc (m : Nat) : (fmtD (Int.negSucc m)).data = '-' :: decDigits (m + 1) := by
  show ("-" ++ toString (m + 1)).data = _
  rw [String.data_append, toString_nat_data]
  rfl

theorem decDigits_chars (n : Nat) : ∀ c ∈ decDigits n, IsDecChar c := by
  induction n using Nat.strong_induction_on with
  | _ n ih =>
    by_cases hn : n < 10
    · rw [decDigits_small hn]
      intro c hc
      simp only [List.mem_singleton] at hc
      exact ⟨n, hn, hc⟩
    · rw [decDigits_large hn]
      intro c hc
      rcases List.mem_append.mp hc with h | h
      · exact ih (n / 10) (by omega) c h
      · simp only [List.mem_singleton] at h
        exact ⟨n % 10, by omega, h⟩

theorem decDigits_ne_nil (n : Nat) : decDigits n ≠ [] := by
  by_cases hn : n < 10
  · rw [decDigits_small hn]; simp
  · rw [decDigits_large hn]; simp

theorem IsDecChar.facts {c : Char} (h : IsDecChar c) :
    isNumberChar c = true ∧ (c == '_') = false ∧ isSpace c = false ∧ c ≠ '\n' ∧ c ≠ '\r' ∧
      c ≠ '+' ∧ c ≠ '-' := by
  obtain ⟨d, hd, rfl⟩ := h
  interval_cases d <;> decide

theorem digitChar_value {d : Nat} (h : d < 10) : (Nat.digitChar d).toNat - '0'.toNat = d := by
  interval_cases d <;> decide

theorem digitsValue_append (xs : List Char) (c : Char) :
    digitsValue (xs ++ [c]) = 10 * digitsValue xs + (c.toNat - '0'.toNat) := by
  simp [digitsValue, List.foldl_append]

theorem digitsValue_decDigits (n : Nat) : digitsValue (decDigits n) = n := by
  induction n using Nat.strong_induction_on with
  | _ n ih =>
    by_cases hn : n < 10
    · rw [decDigits_small hn]
      have h := digitChar_value hn
      simpa [digitsValue] using h
    · rw [decDigits_large hn, digitsValue_append, ih (n / 10) (by omega),
        digitChar_value (Nat.mod_lt n (by omega))]
      omega

theorem skipSpace_of_head {c : Char} (cs : List Char) (h1 : c ≠ '\r') (h2 : c ≠ '\n')
    (h3 : isSpace c = false) : skipSpace (c :: cs) = some (c :: cs) := by
  simp [skipSpace, h1, h2, h3]

theorem takeWhile_decDigits (n : Nat) : (decDigits n).takeWhile isNumberChar = decDigits n := by
  rw [List.takeWhile_eq_self_iff]
  intro c hc
  exact (decDigits_chars n c hc).facts.1

theorem any_underscore_decDigits (n : Nat) :
    (decDigits n).any (fun c => c == '_') = false := by
  rw [List.any_eq_false]
  intro c hc
  simp [(decDigits_chars n c hc).facts.2.1]

theorem scanInt_decDigits (n : Nat) (h : n < 2 ^ (intBits - 1)) :
    scanInt (decDigits n) = some (n : Int) := by
  obtain ⟨c, cs, hcs⟩ := List.exists_cons_of_ne_nil (decDigits_ne_nil n)
  have hc : IsDecChar c := decDigits_chars n c (by rw [hcs]; simp)
  obtain ⟨-, -, hsp, hnl, hcr, hplus, hminus⟩ := hc.facts
  have hbody : (c :: cs).takeWhile isNumberChar = c :: cs := by
    rw [← hcs]; exact takeWhile_decDigits n
  have hany : (c :: cs).any (fun c => c == '_') = false := by
    rw [← hcs]; exact any_underscore_decDigits n
  have hval : digitsValue (c :: cs) = n := by rw [← hcs]; exact digitsValue_decDigits n
  rw [hcs]
  unfold scanInt
  rw [skipSpace_of_head cs hcr hnl hsp]
  simp only [hplus, hminus, or_self, if_false, hbody, beq_iff_eq]
  simp only [parseInt, hany, hval]
  simp [h, Nat.not_le.mpr h, hminus]

theorem scanInt_neg_decDigits (n : Nat) (h : n ≤ 2 ^ (intBits - 1)) :
    scanInt ('-' :: decDigits n) = some (-(n : Int)) := by
  unfold scanInt
  rw [skipSpace_of_head _ (by decide) (by decide) (by decide)]
  simp only [takeWhile_decDigits, beq_self_eq_true, or_true, if_true]
  simp only [parseInt, any_underscore_decDigits, digitsValue_decDigits]
  simp [decDigits_ne_nil, Nat.not_lt.mpr h]

/-- Scanning a formatted Go `int` with the pattern `p%d` gives the integer back. -/
theorem sscanfKey_sprintfKey (n : Int) (h : IsGoInt n) : sscanfKey (sprintfKey n) = some n := by
  unfold sscanfKey sprintfKey
  rw [String.data_append]
  show (if 'p' = 'p' then (skipSpace (fmtD n).data).bind scanInt else none) = some n
  rw [if_pos rfl]
  obtain ⟨hlo, hhi⟩ := h
  cases n with
  | ofNat m =>
    rw [fmtD_ofNat]
    obtain ⟨c, cs, hcs⟩ := List.exists_cons_of_ne_nil (decDigits_ne_nil m)
    have hc : IsDecChar c := decDigits_chars m c (by rw [hcs]; simp)
    obtain ⟨-, -, hsp, hnl, hcr, -, -⟩ := hc.facts
    rw [hcs, skipSpace_of_head cs hcr hnl hsp, ← hcs]
    have hm : m < 2 ^ (intBits - 1) := by
      have : ((m : Nat) : Int) < (2 : Int) ^ (intBits - 1) := hhi
      exact_mod_cast this
    simpa using scanInt_decDigits m hm
  | negSucc m =>
    rw [fmtD_negSucc, skipSpace_of_head _ (by decide) (by decide) (by decide)]
    have hm : m + 1 ≤ 2 ^ (intBits - 1) := by
      have h1 : -(2 : Int) ^ (intBits - 1) ≤ Int.negSucc m := hlo
      have h2 : Int.negSucc m = -((m : Int) + 1) := rfl
      have h3 : ((m + 1 : Nat) : Int) ≤ (2 : Int) ^ (intBits - 1) := by
        push_cast; omega
      exact_mod_cast h3
    have := scanInt_neg_decDigits (m + 1) hm
    simpa [Int.negSucc_eq] using this

/-! ## Keyword registry: canonical lists -/

theorem foldl_snoc_eq_map {α β : Type} (f : α → β) (xs : List α) (acc : List β) :
    xs.foldl (fun sp p => sp ++ [f p]) acc = acc ++ xs.map f := by
  induction xs generalizing acc with
  | nil => simp
  | cons x xs ih => simp [List.foldl_cons, ih]

theorem traceKeywords_eq (ps : List Int) :
    traceKeywords ps =
      ["count", "uri_method_status", "min", "max", "sum", "avg"] ++ ps.map sprintfKey ++
        ["stddev", "min_body", "max_body", "sum_body", "avg_body", "trace_id_sample"] := by
  simp [traceKeywords, foldl_snoc_eq_map]

theorem traceDefaultHeaders_eq (ps : List Int) :
    traceDefaultHeaders ps =
      ["Count", "UriMethodStatus", "Min", "Max", "Sum", "Avg"] ++ ps.map sprintfHeader ++
        ["Stddev", "Min(Body)", "Max(Body)", "Sum(Body)", "Avg(Body)", "TraceIdSample"] := by
  simp [traceDefaultHeaders, foldl_snoc_eq_map]

theorem traceKeywords_length (ps : List Int) : (traceKeywords ps).length = 12 + ps.length := by
  rw [traceKeywords_eq]; simp; omega

theorem traceDefaultHeaders_length (ps : List Int) :
    (traceDefaultHeaders ps).length = 12 + ps.length := by
  rw [traceDefaultHeaders_eq]; simp; omega

/-! ## Constructor -/

theorem newTracePrinterLoop_all (p : TracePrinter) (ks : List String) (h : "all" ∈ ks) :
    newTracePrinterLoop p ks =
      { p with
        keywords := traceKeywords p.percentiles
        headers := traceDefaultHeaders p.percentiles
        all := true } := by
  induction ks generalizing p with
  | nil => simp at h
  | cons k ks ih =>
    unfold newTracePrinterLoop
    by_cases hk : k = "all"
    · simp [hk]
    · have h2 : "all" ∈ ks := by
        rcases List.mem_cons.mp h with h | h
        · exact absurd h.symm hk
        · exact h
      simp only [hk, if_false]
      rw [ih _ h2]

theorem newTracePrinterLoop_plain (p : TracePrinter) (ks : List String) (h : "all" ∉ ks) :
    newTracePrinterLoop p ks = { p with headers := p.headers ++ ks.map p.headersMap.get } := by
  induction ks generalizing p with
  | nil => simp [newTracePrinterLoop]
  | cons k ks ih =>
    unfold newTracePrinterLoop
    have hk : k ≠ "all" := fun e => h (by simp [e])
    have h2 : "all" ∉ ks := fun e => h (by simp [e])
    simp only [hk, if_false]
    rw [ih _ h2]
    simp

/-- The printer built from a selection holding the keyword `all`, or equal to it. -/
theorem NewTracePrinter_all (SplitCSV : String → List String) (val format : String)
    (ps : List Int) (opts : TracePrintOptions) (h : val = "all" ∨ "all" ∈ SplitCSV val) :
    NewTracePrinter SplitCSV val format ps opts =
      { keywords := traceKeywords ps
        format := format
        percentiles := ps
        printOptions := opts
        headers := traceDefaultHeaders ps
        headersMap := traceHeadersMap ps
        all := true } := by
  unfold NewTracePrinter
  by_cases hv : val = "all"
  · simp [hv]
  · have h2 : "all" ∈ SplitCSV val := h.resolve_left hv
    simp only [hv, if_false]
    rw [newTracePrinterLoop_all _ _ h2]

/-- The printer built from a selection without the keyword `all`. -/
theorem NewTracePrinter_plain (SplitCSV : String → List String) (val format : String)
    (ps : List Int) (opts : TracePrintOptions) (hv : val ≠ "all") (h : "all" ∉ SplitCSV val) :
    NewTracePrinter SplitCSV val format ps opts =
      { keywords := SplitCSV val
        format := format
        percentiles := ps
        printOptions := opts
        headers := (SplitCSV val).map (traceHeadersMap ps).get
        headersMap := traceHeadersMap ps
        all := false } := by
  unfold NewTracePrinter
  simp only [hv, if_false]
  rw [newTracePrinterLoop_plain _ _ h]
  simp

theorem NewTracePrinter_headersMap (SplitCSV : String → List String) (val format : String)
    (ps : List Int) (opts : TracePrintOptions) :
    (NewTracePrinter SplitCSV val format ps opts).headersMap = traceHeadersMap ps := by
  by_cases h : val = "all" ∨ "all" ∈ SplitCSV val
  · rw [NewTracePrinter_all _ _ _ _ _ h]
  · rw [NewTracePrinter_plain _ _ _ _ _ (fun e => h (Or.inl e)) (fun e => h (Or.inr e))]

/-! ## Injectivity of the percentile keys -/

theorem decDigits_injective {a b : Nat} (h : decDigits a = decDigits b) : a = b := by
  have := congrArg digitsValue h
  simpa [digitsValue_decDigits] using this

theorem decDigits_ne_minus (a b : Nat) : decDigits a ≠ '-' :: decDigits b := by
  intro h
  obtain ⟨c, cs, hcs⟩ := List.exists_cons_of_ne_nil (decDigits_ne_nil a)
  have hc : IsDecChar c := decDigits_chars a c (by rw [hcs]; simp)
  rw [hcs] at h
  exact hc.facts.2.2.2.2.2.2 (List.cons.inj h).1

theorem fmtD_injective {a b : Int} (h : fmtD a = fmtD b) : a = b := by
  have hd : (fmtD a).data = (fmtD b).data := congrArg String.data h
  cases a with
  | ofNat m =>
    cases b with
    | ofNat n =>
      rw [fmtD_ofNat, fmtD_ofNat] at hd
      rw [decDigits_injective hd]
    | negSucc n =>
      rw [fmtD_ofNat, fmtD_negSucc] at hd
      exact absurd hd (decDigits_ne_minus _ _)
  | negSucc m =>
    cases b with
    | ofNat n =>
      rw [fmtD_ofNat, fmtD_negSucc] at hd
      exact absurd hd.symm (decDigits_ne_minus _ _)
    | negSucc n =>
      rw [fmtD_negSucc, fmtD_negSucc] at hd
      have := decDigits_injective (List.cons.inj hd).2
      have hmn : m = n := by omega
      rw [hmn]

theorem sprintfKey_injective : Function.Injective sprintfKey := by
  intro a b h
  have hd : (sprintfKey a).data = (sprintfKey b).data := congrArg String.data h
  unfold sprintfKey at hd
  rw [String.data_append, String.data_append] at hd
  have h2 : (fmtD a).data = (fmtD b).data := List.append_cancel_left hd
  exact fmtD_injective (String.ext h2)

theorem percentileColumns_traceKeywords (ps : List Int) :
    percentileColumns (traceKeywords ps) ps = ps.map sprintfKey := by
  rw [traceKeywords_eq]
  simp [percentileColumns]

theorem percentileColumns_traceDefaultHeaders (ps : List Int) :
    percentileColumns (traceDefaultHeaders ps) ps = ps.map sprintfHeader := by
  rw [traceDefaultHeaders_eq]
  simp [percentileColumns]

/-! ## Validation -/

theorem foldl_invalids (m : GoMap) (ks : List String) (acc : List String) :
    ks.foldl
        (fun invalids key =>
          match m.get? key with
          | none => invalids ++ [key]
          | some _ => invalids) acc =
      acc ++ ks.filter (fun k => (m.get? k).isNone) := by
  induction ks generalizing acc with
  | nil => simp
  | cons k ks ih =>
    rw [List.foldl_cons, ih]
    cases hk : m.get? k <;> simp [List.filter_cons, hk]

theorem Validate_eq (p : TracePrinter) :
    p.Validate =
      if p.all = true then none
      else if p.keywords.filter (fun k => (p.headersMap.get? k).isNone) = [] then none
      else some ("invalid keywords: " ++
        String.intercalate "," (p.keywords.filter (fun k => (p.headersMap.get? k).isNone))) := by
  unfold TracePrinter.Validate
  simp only [foldl_invalids, List.nil_append, stringsJoin]
  by_cases ha : p.all = true
  · simp [ha]
  · simp only [ha]
    by_cases hf : p.keywords.filter (fun k => (p.headersMap.get? k).isNone) = []
    · simp [hf]
    · have : 0 < (p.keywords.filter (fun k => (p.headersMap.get? k).isNone)).length :=
        List.length_pos.mpr hf
      simp [hf, this]

/-! ## Keys of the header mapping -/

theorem get?_foldl_set (f g : Int → String) (ps : List Int) (m : GoMap) (k : String)
    (h : (ps.foldl (fun headers p => headers.set (f p) (g p)) m).get? k ≠ none) :
    m.get? k ≠ none ∨ ∃ n ∈ ps, k = f n := by
  induction ps generalizing m with
  | nil => exact Or.inl h
  | cons p ps ih =>
    rw [List.foldl_cons] at h
    rcases ih _ h with h1 | ⟨n, hn, hk⟩
    · by_cases hp : f p = k
      · exact Or.inr ⟨p, by simp, hp.symm⟩
      · left
        simpa [GoMap.set, GoMap.get?, hp] using h1
    · exact Or.inr ⟨n, by simp [hn], hk⟩

theorem get?_static (k : String) (h : staticHeaders.get? k ≠ none) : k ∈ staticKeys := by
  by_contra hk
  simp only [staticKeys, List.mem_cons, List.mem_singleton, List.not_mem_nil, or_false,
    not_or] at hk
  obtain ⟨h1, h2, h3, h4, h5, h6, h7, h8, h9, h10, h11, h12⟩ := hk
  apply h
  simp only [staticHeaders, traceHeadersMap, List.foldl_nil, GoMap.get?]
  rw [if_neg (Ne.symm h1), if_neg (Ne.symm h2), if_neg (Ne.symm h3), if_neg (Ne.symm h4),
    if_neg (Ne.symm h5), if_neg (Ne.symm h6), if_neg (Ne.symm h7), if_neg (Ne.symm h8),
    if_neg (Ne.symm h9), if_neg (Ne.symm h10), if_neg (Ne.symm h11), if_neg (Ne.symm h12)]

theorem traceHeadersMap_keys (ps : List Int) (k : String)
    (h : (traceHeadersMap ps).get? k ≠ none) :
    k ∈ staticKeys ∨ ∃ n ∈ ps, k = sprintfKey n := by
  rcases get?_foldl_set sprintfKey sprintfHeader ps _ k h with h1 | h1
  · exact Or.inl (get?_static k h1)
  · exact Or.inr h1

/-! ## Length of a row -/

theorem ite_length {c : Prop} [Decidable c] {a b : List String} {m : Nat}
    (ha : a.length = m) (hb : b.length = m) : (if c then a else b).length = m := by
  by_cases h : c
  · rw [if_pos h]; exact ha
  · rw [if_neg h]; exact hb

theorem traceLineStep_length_static {F : Type} (E : Deps F) (p : TracePrinter)
    (s : ScenarioStat F) (q : Bool) (line : List String) (k : String) (h : k ∈ staticKeys) :
    (traceLineStep E p s q line k).length = line.length + 1 := by
  simp only [staticKeys, List.mem_cons, List.mem_singleton, List.not_mem_nil, or_false] at h
  unfold traceLineStep
  rcases h with h | h | h | h | h | h | h | h | h | h | h | h <;> subst h <;> simp

theorem traceLineStep_length_scan {F : Type} (E : Deps F) (p : TracePrinter)
    (s : ScenarioStat F) (q : Bool) (line : List String) (k : String) (n : Int)
    (h : sscanfKey k = some n) :
    (traceLineStep E p s q line k).length = line.length + 1 := by
  unfold traceLineStep
  rw [h]
  repeat' apply ite_length
  all_goals simp only [List.length_append, List.length_singleton]

theorem foldl_length_of_step {step : List String → String → List String} {good : String → Prop}
    (hstep : ∀ line k, good k → (step line k).length = line.length + 1)
    (ks : List String) (line : List String) (h : ∀ k ∈ ks, good k) :
    (ks.foldl step line).length = line.length + ks.length := by
  induction ks generalizing line with
  | nil => simp
  | cons k ks ih =>
    rw [List.foldl_cons, ih _ (fun k' hk' => h k' (by simp [hk'])), hstep line k (h k (by simp))]
    simp only [List.length_cons]
    omega

theorem traceLineStep_length {F : Type} (E : Deps F) (p : TracePrinter)
    (s : ScenarioStat F) (q : Bool) (line : List String) (k : String)
    (h : k ∈ staticKeys ∨ ∃ n, sscanfKey k = some n) :
    (traceLineStep E p s q line k).length = line.length + 1 := by
  rcases h with h | ⟨n, hn⟩
  · exact traceLineStep_length_static E p s q line k h
  · exact traceLineStep_length_scan E p s q line k n hn

theorem traceLineWithDiffStep_length {F : Type} (E : Deps F) (p : TracePrinter)
    (d : TraceDiffer) (s : ScenarioStat F) (q : Bool) (line : List String) (k : String)
    (h : k ∈ diffKeys ∨ ∃ n, sscanfKey k = some n) :
    (traceLineWithDiffStep E p d s q line k).length = line.length + 1 := by
  rcases h with h | ⟨n, hn⟩
  · simp only [diffKeys, List.mem_cons, List.mem_singleton, List.not_mem_nil, or_false] at h
    unfold traceLineWithDiffStep
    rcases h with h | h | h | h | h | h | h | h | h | h | h <;> subst h <;> simp
  · unfold traceLineWithDiffStep
    rw [hn]
    repeat' apply ite_length
    all_goals simp only [List.length_append, List.length_singleton]

theorem traceKeywords_emit (ps : List Int) (hp : ∀ n ∈ ps, IsGoInt n) :
    ∀ k ∈ traceKeywords ps, k ∈ staticKeys ∨ ∃ n, sscanfKey k = some n := by
  intro k hk
  rw [traceKeywords_eq] at hk
  simp only [List.mem_append, List.mem_map] at hk
  rcases hk with (hk | ⟨n, hn, rfl⟩) | hk
  · left
    simp only [List.mem_cons, List.mem_singleton, List.not_mem_nil, or_false] at hk
    rcases hk with h | h | h | h | h | h <;> subst h <;> decide
  · exact Or.inr ⟨n, sscanfKey_sprintfKey n (hp n hn)⟩
  · left
    simp only [List.mem_cons, List.mem_singleton, List.not_mem_nil, or_false] at hk
    rcases hk with h | h | h | h | h | h <;> subst h <;> decide

theorem validated_emit (p : TracePrinter) (ps : List Int) (hp : ∀ n ∈ ps, IsGoInt n)
    (hm : p.headersMap = traceHeadersMap ps) (ha : p.all = false) (hv : p.Validate = none) :
    ∀ k ∈ p.keywords, k ∈ staticKeys ∨ ∃ n, sscanfKey k = some n := by
  intro k hk
  rw [Validate_eq] at hv
  simp only [ha] at hv
  have hf : p.keywords.filter (fun k => (p.headersMap.get? k).isNone) = [] := by
    by_contra hne
    simp [hne] at hv
  have hk2 : (p.headersMap.get? k).isNone = false := by
    by_contra hne
    have : k ∈ p.keywords.filter (fun k => (p.headersMap.get? k).isNone) := by
      simp [List.mem_filter, hk]
      simpa using hne
    rw [hf] at this
    simp at this
  rw [hm] at hk2
  have hk3 : (traceHeadersMap ps).get? k ≠ none := by
    intro e; rw [e] at hk2; simp at hk2
  rcases traceHeadersMap_keys ps k hk3 with h | ⟨n, hn, rfl⟩
  · exact Or.inl h
  · exact Or.inr ⟨n, sscanfKey_sprintfKey n (hp n hn)⟩

/-! ## Rows are built cell by cell -/

theorem ite_append {c : Prop} [Decidable c] {line a b a' b' : List String}
    (ha : a = line ++ a') (hb : b = line ++ b') :
    (if c then a else b) = line ++ (if c then a' else b') := by
  by_cases h : c
  · rw [if_pos h, if_pos h]; exact ha
  · rw [if_neg h, if_neg h]; exact hb

theorem traceLineStep_append {F : Type} (E : Deps F) (p : TracePrinter) (s : ScenarioStat F)
    (q : Bool) (line : List String) (k : String) :
    traceLineStep E p s q line k = line ++ traceLineStep E p s q [] k := by
  unfold traceLineStep
  cases sscanfKey k <;>
  · repeat' apply ite_append
    all_goals simp only [List.nil_append, List.append_nil]

theorem traceLineWithDiffStep_append {F : Type} (E : Deps F) (p : TracePrinter)
    (d : TraceDiffer) (s : ScenarioStat F) (q : Bool) (line : List String) (k : String) :
    traceLineWithDiffStep E p d s q line k = line ++ traceLineWithDiffStep E p d s q [] k := by
  unfold traceLineWithDiffStep
  cases sscanfKey k <;>
  · repeat' apply ite_append
    all_goals simp only [List.nil_append, List.append_nil]

theorem foldl_step_append {step : List String → String → List String}
    (hstep : ∀ line k, step line k = line ++ step [] k) (ks : List String) (line : List String) :
    ks.foldl step line = line ++ ks.foldl step [] := by
  induction ks generalizing line with
  | nil => simp
  | cons k ks ih =>
    rw [List.foldl_cons, List.foldl_cons, ih (step line k), ih (step [] k), hstep line k,
      List.append_assoc]

theorem foldl_step_split {step : List String → String → List String}
    (hstep : ∀ line k, step line k = line ++ step [] k) (pre post : List String) (k : String) :
    (pre ++ k :: post).foldl step [] = pre.foldl step [] ++ step [] k ++ post.foldl step [] := by
  rw [List.foldl_append, List.foldl_cons, foldl_step_append hstep post, hstep (pre.foldl step []) k]

theorem containsChars_comma (l : List Char) : containsChars [','] l = true ↔ ',' ∈ l := by
  induction l with
  | nil => simp [containsChars]
  | cons c cs ih =>
    simp only [containsChars, startsWith, Bool.and_true, Bool.or_eq_true, beq_iff_eq, ih,
      List.mem_cons]

theorem stringsContains_comma (s : String) : stringsContains s "," = true ↔ ',' ∈ s.data :=
  containsChars_comma s.data

/-! ## Row generation: the identity and trace-sample columns -/

theorem GenerateTraceLineWithDiff_skips_aux {F : Type} (E : Deps F)
    (p : TracePrinter) (sFrom sTo : ScenarioStat F) (quoteUri : Bool) (pre post : List String) :
    (pre ++ "trace_id_sample" :: post).foldl
        (traceLineWithDiffStep E p (E.NewTraceDiffer sFrom sTo) sTo quoteUri) [] =
      pre.foldl (traceLineWithDiffStep E p (E.NewTraceDiffer sFrom sTo) sTo quoteUri) [] ++
        post.foldl (traceLineWithDiffStep E p (E.NewTraceDiffer sFrom sTo) sTo quoteUri) [] := by
  rw [foldl_step_split (traceLineWithDiffStep_append E p _ sTo quoteUri)]
  have h0 : sscanfKey "trace_id_sample" = none := by decide
  have h1 : traceLineWithDiffStep E p (E.NewTraceDiffer sFrom sTo) sTo quoteUri []
      "trace_id_sample" = [] := by
    unfold traceLineWithDiffStep
    rw [h0]
    simp
  rw [h1, List.append_nil]

/-- C1 (the code departs from the claim): at a `trace_id_sample` keyword, wherever it stands
in the keyword list, `GenerateTraceLineWithDiff` appends no cell, so its row is the row of
the keywords before followed by the row of the keywords after, while `GenerateTraceLine`
emits the trace identifier of the "to" record at that position. -/
theorem GenerateTraceLineWithDiff_skips_trace_id_sample {F : Type} (E : Deps F)
    (p : TracePrinter) (sFrom sTo : ScenarioStat F) (quoteUri : Bool) (pre post : List String) :
    ({ p with keywords := pre ++ "trace_id_sample" :: post }).GenerateTraceLineWithDiff
        E sFrom sTo quoteUri =
      ({ p with keywords := pre }).GenerateTraceLineWithDiff E sFrom sTo quoteUri ++
        ({ p with keywords := post }).GenerateTraceLineWithDiff E sFrom sTo quoteUri ∧
    ({ p with keywords := pre ++ "trace_id_sample" :: post }).GenerateTraceLine
        E sTo quoteUri =
      ({ p with keywords := pre }).GenerateTraceLine E sTo quoteUri ++ [sTo.RandomTraceID] ++
        ({ p with keywords := post }).GenerateTraceLine E sTo quoteUri := by
  constructor
  · exact GenerateTraceLineWithDiff_skips_aux E p sFrom sTo quoteUri pre post
  · show (pre ++ "trace_id_sample" :: post).foldl (traceLineStep E p sTo quoteUri) [] = _
    rw [foldl_step_split (traceLineStep_append E p sTo quoteUri)]
    have h1 : traceLineStep E p sTo quoteUri [] "trace_id_sample" = [sTo.RandomTraceID] := by
      unfold traceLineStep
      simp
    rw [h1]
    rfl

/-! ## Header and row lengths -/

/-- C2: for a percentile list of Go integers and a selection whose printer is in "all" mode
or passes `Validate`, the row of `GenerateTraceLine` has as many cells as there are headers
and as there are keywords. -/
theorem GenerateTraceLine_length {F : Type} (E : Deps F) (SplitCSV : String → List String)
    (val format : String) (ps : List Int) (opts : TracePrintOptions) (s : ScenarioStat F)
    (quoteUri : Bool) (hp : ∀ n ∈ ps, IsGoInt n)
    (hv : (NewTracePrinter SplitCSV val format ps opts).all = true ∨
      (NewTracePrinter SplitCSV val format ps opts).Validate = none) :
    ((NewTracePrinter SplitCSV val format ps opts).GenerateTraceLine E s quoteUri).length =
        (NewTracePrinter SplitCSV val format ps opts).headers.length ∧
      ((NewTracePrinter SplitCSV val format ps opts).GenerateTraceLine E s quoteUri).length =
        (NewTracePrinter SplitCSV val format ps opts).keywords.length := by
  by_cases h : val = "all" ∨ "all" ∈ SplitCSV val
  · rw [NewTracePrinter_all _ _ _ _ _ h]
    have hlen := foldl_length_of_step (traceLineStep_length E
      { keywords := traceKeywords ps, format := format, percentiles := ps, printOptions := opts,
        headers := traceDefaultHeaders ps, headersMap := traceHeadersMap ps, all := true }
      s quoteUri) (traceKeywords ps) [] (traceKeywords_emit ps hp)
    simp only [TracePrinter.GenerateTraceLine, hlen, List.length_nil, Nat.zero_add,
      traceKeywords_length, traceDefaultHeaders_length, and_self]
  · have hplain := NewTracePrinter_plain SplitCSV val format ps opts
      (fun e => h (Or.inl e)) (fun e => h (Or.inr e))
    rw [hplain] at hv ⊢
    have hval := hv.resolve_left (by simp)
    have hemit := validated_emit _ ps hp rfl rfl hval
    have hlen := foldl_length_of_step (traceLineStep_length E
      { keywords := SplitCSV val, format := format, percentiles := ps, printOptions := opts,
        headers := (SplitCSV val).map (traceHeadersMap ps).get,
        headersMap := traceHeadersMap ps, all := false }
      s quoteUri) (SplitCSV val) [] hemit
    simp only [TracePrinter.GenerateTraceLine, hlen, List.length_nil, Nat.zero_add,
      List.length_map, and_self]

/-- Witness of C2: percentiles `[50, 99]` and the selection `count, avg ,p99`. -/
theorem GenerateTraceLine_length_witness :
    (∀ n ∈ [(50 : Int), 99], IsGoInt n) ∧
      (NewTracePrinter SplitCSV "count, avg ,p99" "csv" [50, 99] sampleOptions).Validate = none ∧
      ((NewTracePrinter SplitCSV "count, avg ,p99" "csv" [50, 99] sampleOptions).GenerateTraceLine
          sampleDeps (sampleStat "/api/items GET 200" 120) true).length =
        (NewTracePrinter SplitCSV "count, avg ,p99" "csv" [50, 99] sampleOptions).headers.length ∧
      ((NewTracePrinter SplitCSV "count, avg ,p99" "csv" [50, 99] sampleOptions).GenerateTraceLine
          sampleDeps (sampleStat "/api/items GET 200" 120) true).length =
        (NewTracePrinter SplitCSV "count, avg ,p99" "csv" [50, 99] sampleOptions).keywords.length :=
  ⟨by decide, by decide,
    GenerateTraceLine_length sampleDeps SplitCSV "count, avg ,p99" "csv" [50, 99] sampleOptions
      (sampleStat "/api/items GET 200" 120) true (by decide) (Or.inr (by decide))⟩

/-- C3 (the code departs from the claim): for every percentile list of Go integers, the
printer of the selection `all` is in "all" mode and the row of `GenerateTraceLineWithDiff`
is one cell shorter than the header list and the keyword list, the `trace_id_sample` column
having no cell. -/
theorem GenerateTraceLineWithDiff_all_length {F : Type} (E : Deps F)
    (SplitCSV : String → List String) (format : String) (ps : List Int)
    (opts : TracePrintOptions) (sFrom sTo : ScenarioStat F) (quoteUri : Bool)
    (hp : ∀ n ∈ ps, IsGoInt n) :
    (NewTracePrinter SplitCSV "all" format ps opts).all = true ∧
      ((NewTracePrinter SplitCSV "all" format ps opts).GenerateTraceLineWithDiff
          E sFrom sTo quoteUri).length + 1 =
        (NewTracePrinter SplitCSV "all" format ps opts).headers.length ∧
      (NewTracePrinter SplitCSV "all" format ps opts).headers.length =
        (NewTracePrinter SplitCSV "all" format ps opts).keywords.length := by
  rw [NewTracePrinter_all _ _ _ _ _ (Or.inl rfl)]
  refine ⟨rfl, ?_, ?_⟩
  · have hk : traceKeywords ps =
        (["count", "uri_method_status", "min", "max", "sum", "avg"] ++ ps.map sprintfKey ++
          ["stddev", "min_body", "max_body", "sum_body", "avg_body"]) ++
          "trace_id_sample" :: [] := by
      rw [traceKeywords_eq]; simp
    simp only [TracePrinter.GenerateTraceLineWithDiff]
    generalize TracePrinter.mk (traceKeywords ps) format ps opts (traceDefaultHeaders ps)
      (traceHeadersMap ps) true = P
    rw [hk, GenerateTraceLineWithDiff_skips_aux E P sFrom sTo quoteUri, List.foldl_nil,
      List.append_nil]
    rw [foldl_length_of_step (traceLineWithDiffStep_length E _ _ sTo quoteUri)]
    · rw [traceDefaultHeaders_length]; simp; omega
    · intro k hk'
      simp only [List.mem_append, List.mem_map] at hk'
      rcases hk' with (hk' | ⟨n, hn, rfl⟩) | hk'
      · left
        simp only [List.mem_cons, List.mem_singleton, List.not_mem_nil, or_false] at hk'
        rcases hk' with h | h | h | h | h | h <;> subst h <;> decide
      · exact Or.inr ⟨n, sscanfKey_sprintfKey n (hp n hn)⟩
      · left
        simp only [List.mem_cons, List.mem_singleton, List.not_mem_nil, or_false] at hk'
        rcases hk' with h | h | h | h | h <;> subst h <;> decide
  · show (traceDefaultHeaders ps).length = (traceKeywords ps).length
    rw [traceKeywords_length, traceDefaultHeaders_length]

/-- Witness of C3: percentiles `[50, 99]`. -/
theorem GenerateTraceLineWithDiff_all_length_witness :
    (∀ n ∈ [(50 : Int), 99], IsGoInt n) ∧
      (NewTracePrinter SplitCSV "all" "csv" [50, 99] sampleOptions).all = true ∧
      ((NewTracePrinter SplitCSV "all" "csv" [50, 99] sampleOptions).GenerateTraceLineWithDiff
          sampleDeps (sampleStat "/a GET 200" 100) (sampleStat "/a GET 200" 150) false).length
          + 1 =
        (NewTracePrinter SplitCSV "all" "csv" [50, 99] sampleOptions).headers.length ∧
      (NewTracePrinter SplitCSV "all" "csv" [50, 99] sampleOptions).headers.length =
        (NewTracePrinter SplitCSV "all" "csv" [50, 99] sampleOptions).keywords.length :=
  ⟨by decide,
    GenerateTraceLineWithDiff_all_length sampleDeps SplitCSV "csv" [50, 99] sampleOptions
      (sampleStat "/a GET 200" 100) (sampleStat "/a GET 200" 150) false (by decide)⟩

/-- C4: for every selection and percentile list, whatever the split function returns, the
printer built by `NewTracePrinter` has as many headers as keywords. -/
theorem NewTracePrinter_headers_length (SplitCSV : String → List String) (val format : String)
    (ps : List Int) (opts : TracePrintOptions) :
    (NewTracePrinter SplitCSV val format ps opts).headers.length =
      (NewTracePrinter SplitCSV val format ps opts).keywords.length := by
  by_cases h : val = "all" ∨ "all" ∈ SplitCSV val
  · rw [NewTracePrinter_all _ _ _ _ _ h]
    show (traceDefaultHeaders ps).length = (traceKeywords ps).length
    rw [traceKeywords_length, traceDefaultHeaders_length]
  · rw [NewTracePrinter_plain _ _ _ _ _ (fun e => h (Or.inl e)) (fun e => h (Or.inr e))]
    show ((SplitCSV val).map (traceHeadersMap ps).get).length = (SplitCSV val).length
    rw [List.length_map]

/-! ## The keyword `all` -/

/-- C5: when the split selection holds the keyword `all` at any position, the printer has
the canonical keywords and headers, is in "all" mode, and is the printer of the selection
`all`. -/
theorem NewTracePrinter_all_anywhere (SplitCSV : String → List String) (val format : String)
    (ps : List Int) (opts : TracePrintOptions) (h : "all" ∈ SplitCSV val) :
    (NewTracePrinter SplitCSV val format ps opts).keywords = traceKeywords ps ∧
      (NewTracePrinter SplitCSV val format ps opts).headers = traceDefaultHeaders ps ∧
      (NewTracePrinter SplitCSV val format ps opts).all = true ∧
      NewTracePrinter SplitCSV val format ps opts =
        NewTracePrinter SplitCSV "all" format ps opts := by
  rw [NewTracePrinter_all _ _ _ _ _ (Or.inr h), NewTracePrinter_all _ _ _ _ _ (Or.inl rfl)]
  exact ⟨rfl, rfl, rfl, rfl⟩

/-- Witness of C5: `all` in third position, after a valid and an unknown keyword. -/
theorem NewTracePrinter_all_anywhere_witness :
    "all" ∈ SplitCSV "count, bogus ,all,avg" ∧
      (NewTracePrinter SplitCSV "count, bogus ,all,avg" "csv" [50, 99] sampleOptions).keywords =
        traceKeywords [50, 99] ∧
      (NewTracePrinter SplitCSV "count, bogus ,all,avg" "csv" [50, 99] sampleOptions).headers =
        traceDefaultHeaders [50, 99] ∧
      (NewTracePrinter SplitCSV "count, bogus ,all,avg" "csv" [50, 99] sampleOptions).all = true ∧
      NewTracePrinter SplitCSV "count, bogus ,all,avg" "csv" [50, 99] sampleOptions =
        NewTracePrinter SplitCSV "all" "csv" [50, 99] sampleOptions :=
  ⟨by decide,
    NewTracePrinter_all_anywhere SplitCSV "count, bogus ,all,avg" "csv" [50, 99] sampleOptions
      (by decide)⟩

/-! ## The canonical lists -/

/-- C6: `traceKeywords` and `traceDefaultHeaders` are the six leading columns, one `p<N>` or
`P<N>` entry per percentile in the order of the list, the four body columns after `stddev`,
and the trace sample; both have length `12 + len(ps)`. -/
theorem traceKeywords_traceDefaultHeaders_shape (ps : List Int) :
    traceKeywords ps =
        ["count", "uri_method_status", "min", "max", "sum", "avg"] ++
          ps.map (fun n => "p" ++ toString n) ++
          ["stddev", "min_body", "max_body", "sum_body", "avg_body", "trace_id_sample"] ∧
      traceDefaultHeaders ps =
        ["Count", "UriMethodStatus", "Min", "Max", "Sum", "Avg"] ++
          ps.map (fun n => "P" ++ toString n) ++
          ["Stddev", "Min(Body)", "Max(Body)", "Sum(Body)", "Avg(Body)", "TraceIdSample"] ∧
      (traceKeywords ps).length = 12 + ps.length ∧
      (traceDefaultHeaders ps).length = 12 + ps.length :=
  ⟨traceKeywords_eq ps, traceDefaultHeaders_eq ps, traceKeywords_length ps,
    traceDefaultHeaders_length ps⟩

/-- C7, as stated, fails: for the configured list `[99, 50]` the percentile columns of
`traceKeywords` are `p99, p50`, which is the formatting of no ascending list of integers. -/
theorem traceKeywords_not_ascending :
    percentileColumns (traceKeywords [99, 50]) [99, 50] = ["p99", "p50"] ∧
      ¬ ∃ ns : List Int, ns.Sorted (· ≤ ·) ∧
        percentileColumns (traceKeywords [99, 50]) [99, 50] = ns.map sprintfKey := by
  refine ⟨by decide, ?_⟩
  rintro ⟨ns, hs, h⟩
  rw [percentileColumns_traceKeywords] at h
  have hns : ns = [99, 50] := (List.map_injective_iff.mpr sprintfKey_injective h).symm
  rw [hns] at hs
  revert hs
  decide

/-- C7, amended: for every configured percentile list the percentile columns of
`traceKeywords` and `traceDefaultHeaders` follow the order of the list, and they are the
formatting of an ascending list of integers exactly when the configured list is ascending. -/
theorem percentileColumns_configured_order (ps : List Int) :
    percentileColumns (traceKeywords ps) ps = ps.map (fun n => "p" ++ toString n) ∧
      percentileColumns (traceDefaultHeaders ps) ps = ps.map (fun n => "P" ++ toString n) ∧
      ((∃ ns : List Int, ns.Sorted (· ≤ ·) ∧
          percentileColumns (traceKeywords ps) ps = ns.map sprintfKey) ↔
        ps.Sorted (· ≤ ·)) := by
  refine ⟨percentileColumns_traceKeywords ps, percentileColumns_traceDefaultHeaders ps, ?_⟩
  constructor
  · rintro ⟨ns, hs, h⟩
    rw [percentileColumns_traceKeywords] at h
    have hns : ns = ps := (List.map_injective_iff.mpr sprintfKey_injective h).symm
    rw [← hns]; exact hs
  · intro hs
    exact ⟨ps, hs, percentileColumns_traceKeywords ps⟩

/-! ## Validation -/

/-- C8: `Validate` fails exactly when the printer is not in "all" mode and some keyword is
absent from the header mapping; the error is then the single message `invalid keywords: `
followed by the unresolved keywords in selection order, repetitions kept, joined by commas;
in "all" mode the result is nil. The mapping of a printer built by `NewTracePrinter` is
`traceHeadersMap` of the configured percentiles. -/
theorem Validate_error_iff (p : TracePrinter) :
    (p.Validate ≠ none ↔ p.all = false ∧ ∃ k ∈ p.keywords, p.headersMap.get? k = none) ∧
      (p.Validate ≠ none →
        p.Validate = some ("invalid keywords: " ++
          String.intercalate "," (p.keywords.filter (fun k => (p.headersMap.get? k).isNone)))) ∧
      (p.all = true → p.Validate = none) ∧
      ∀ (SplitCSV : String → List String) (val format : String) (ps : List Int)
        (opts : TracePrintOptions),
        (NewTracePrinter SplitCSV val format ps opts).headersMap = traceHeadersMap ps := by
  have hfilter : p.keywords.filter (fun k => (p.headersMap.get? k).isNone) = [] ↔
      ¬ ∃ k ∈ p.keywords, p.headersMap.get? k = none := by
    rw [List.filter_eq_nil_iff]
    constructor
    · rintro h ⟨k, hk, hnone⟩
      exact h k hk (by simp [hnone])
    · intro h k hk hnone
      exact h ⟨k, hk, by simpa using hnone⟩
  refine ⟨?_, ?_, ?_, fun SplitCSV val format ps opts =>
    NewTracePrinter_headersMap SplitCSV val format ps opts⟩
  · rw [Validate_eq]
    by_cases ha : p.all = true
    · rw [if_pos ha]
      simp [ha]
    · have ha2 : p.all = false := by simpa using ha
      rw [if_neg ha]
      by_cases hf : p.keywords.filter (fun k => (p.headersMap.get? k).isNone) = []
      · rw [if_pos hf]
        have := hfilter.mp hf
        constructor
        · intro h; exact absurd rfl h
        · rintro ⟨_, h⟩; exact absurd h this
      · rw [if_neg hf]
        have : ∃ k ∈ p.keywords, p.headersMap.get? k = none := by
          by_contra hne
          exact hf (hfilter.mpr hne)
        constructor
        · intro _; exact ⟨ha2, this⟩
        · intro _ h; cases h
  · intro hne
    rw [Validate_eq] at hne ⊢
    by_cases ha : p.all = true
    · rw [if_pos ha] at hne; exact absurd rfl hne
    · rw [if_neg ha] at hne ⊢
      by_cases hf : p.keywords.filter (fun k => (p.headersMap.get? k).isNone) = []
      · rw [if_pos hf] at hne; exact absurd rfl hne
      · rw [if_neg hf]
  · intro ha
    rw [Validate_eq, if_pos ha]

/-! ## The identity cell -/

/-- C9: at a `uri_method_status` keyword, wherever it stands, `GenerateTraceLine` emits the
raw identity between one pair of double quotes when the quote flag is set and the raw
identity holds a comma, and otherwise the result of `UriWithOptions(decodeUri)` unchanged. -/
theorem GenerateTraceLine_identity_cell {F : Type} (E : Deps F) (p : TracePrinter)
    (s : ScenarioStat F) (quoteUri : Bool) (pre post : List String) :
    ({ p with keywords := pre ++ "uri_method_status" :: post }).GenerateTraceLine
        E s quoteUri =
      ({ p with keywords := pre }).GenerateTraceLine E s quoteUri ++
        [if quoteUri = true ∧ ',' ∈ s.TraceUriMethodStatus.data then
            "\"" ++ s.TraceUriMethodStatus ++ "\""
          else s.UriWithOptions p.printOptions.decodeUri] ++
        ({ p with keywords := post }).GenerateTraceLine E s quoteUri := by
  show (pre ++ "uri_method_status" :: post).foldl (traceLineStep E p s quoteUri) [] = _
  rw [foldl_step_split (traceLineStep_append E p s quoteUri)]
  have h1 : traceLineStep E p s quoteUri [] "uri_method_status" =
      [if quoteUri = true ∧ ',' ∈ s.TraceUriMethodStatus.data then
          "\"" ++ s.TraceUriMethodStatus ++ "\""
        else s.UriWithOptions p.printOptions.decodeUri] := by
    unfold traceLineStep
    simp only [String.reduceEq, if_false, if_true, List.nil_append, Bool.and_eq_true,
      stringsContains_comma, sprintfQuoted]
  rw [h1]
  rfl

/-- C10, as stated, fails: with the quote flag set, the identity `/api/items,GET,200` holds
a comma and its cell is the quoted identity, not the plain identity. -/
theorem GenerateTraceLine_quotes_items_identity :
    (NewTracePrinter SplitCSV "uri_method_status" "csv" [] sampleOptions).GenerateTraceLine
        sampleDeps (sampleStat "/api/items,GET,200" 120) true = ["\"/api/items,GET,200\""] ∧
      (NewTracePrinter SplitCSV "uri_method_status" "csv" [] sampleOptions).GenerateTraceLine
        sampleDeps (sampleStat "/api/items,GET,200" 120) true ≠
        [(sampleStat "/api/items,GET,200" 120).UriWithOptions false] := by
  decide

/-- C10, amended: with the quote flag set, a record whose identity is `/api/items,GET,200`
and a record whose identity is `/api,items GET,200` both have the identity cell wrapped in
double quotes, each identity holding a comma; the comma-free identity `/api/items GET 200`
gets no quoting. -/
theorem GenerateTraceLine_csv_identities {F : Type} (E : Deps F) (p : TracePrinter)
    (s : ScenarioStat F) :
    ({ p with keywords := ["uri_method_status"] }).GenerateTraceLine E
        { s with TraceUriMethodStatus := "/api/items,GET,200" } true =
        ["\"/api/items,GET,200\""] ∧
      ({ p with keywords := ["uri_method_status"] }).GenerateTraceLine E
        { s with TraceUriMethodStatus := "/api,items GET,200" } true =
        ["\"/api,items GET,200\""] ∧
      ({ p with keywords := ["uri_method_status"] }).GenerateTraceLine E
        { s with TraceUriMethodStatus := "/api/items GET 200" } true =
        [s.UriWithOptions p.printOptions.decodeUri] := by
  have hsplit : ∀ s' : ScenarioStat F,
      ({ p with keywords := ["uri_method_status"] }).GenerateTraceLine E s' true =
        [if true = true ∧ ',' ∈ s'.TraceUriMethodStatus.data then
            "\"" ++ s'.TraceUriMethodStatus ++ "\""
          else s'.UriWithOptions p.printOptions.decodeUri] := by
    intro s'
    have h1 : traceLineStep E p s' true [] "uri_method_status" =
        [if true = true ∧ ',' ∈ s'.TraceUriMethodStatus.data then
            "\"" ++ s'.TraceUriMethodStatus ++ "\""
          else s'.UriWithOptions p.printOptions.decodeUri] := by
      unfold traceLineStep
      simp only [String.reduceEq, if_false, if_true, List.nil_append, Bool.and_eq_true,
        stringsContains_comma, sprintfQuoted]
    exact h1
  refine ⟨?_, ?_, ?_⟩
  · rw [hsplit]
    have hc : ',' ∈ "/api/items,GET,200".data := by decide
    simp only [hc, and_self, if_true]
    decide
  · rw [hsplit]
    have hc : ',' ∈ "/api,items GET,200".data := by decide
    simp only [hc, and_self, if_true]
    decide
  · rw [hsplit]
    have hc : ¬ ',' ∈ "/api/items GET 200".data := by decide
    simp only [hc, and_false, if_false]

/-! ## Lookup of the "from" record -/

theorem findTraceStatFromLoop_none {F : Type} (sTo : ScenarioStat F)
    (l : List (ScenarioStat F)) :
    findTraceStatFromLoop sTo l = none ↔
      ∀ s ∈ l, s.TraceUriMethodStatus ≠ sTo.TraceUriMethodStatus := by
  induction l with
  | nil => simp [findTraceStatFromLoop]
  | cons a l ih =>
    unfold findTraceStatFromLoop
    by_cases h : a.TraceUriMethodStatus = sTo.TraceUriMethodStatus
    · rw [if_pos h]
      constructor
      · intro e; cases e
      · intro e; exact absurd h (e a (by simp))
    · rw [if_neg h, ih]
      constructor
      · intro e s hs
        rcases List.mem_cons.mp hs with rfl | hs
        · exact h
        · exact e s hs
      · intro e s hs
        exact e s (by simp [hs])

theorem findTraceStatFromLoop_some {F : Type} (sTo : ScenarioStat F)
    (l : List (ScenarioStat F)) (f : ScenarioStat F) :
    findTraceStatFromLoop sTo l = some f ↔
      ∃ pre post, l = pre ++ f :: post ∧
        f.TraceUriMethodStatus = sTo.TraceUriMethodStatus ∧
        ∀ s ∈ pre, s.TraceUriMethodStatus ≠ sTo.TraceUriMethodStatus := by
  induction l with
  | nil => simp [findTraceStatFromLoop]
  | cons a l ih =>
    unfold findTraceStatFromLoop
    by_cases h : a.TraceUriMethodStatus = sTo.TraceUriMethodStatus
    · rw [if_pos h]
      constructor
      · intro e
        have hf : a = f := Option.some.inj e
        subst hf
        exact ⟨[], l, rfl, h, by simp⟩
      · rintro ⟨pre, post, hl, _, hpre⟩
        cases pre with
        | nil =>
          have := (List.cons.inj hl).1
          rw [this]
        | cons b pre =>
          have hb : a = b := (List.cons.inj hl).1
          exact absurd h (hb ▸ hpre b (by simp))
    · rw [if_neg h, ih]
      constructor
      · rintro ⟨pre, post, hl, hf, hpre⟩
        refine ⟨a :: pre, post, by rw [hl]; rfl, hf, ?_⟩
        intro s hs
        rcases List.mem_cons.mp hs with rfl | hs
        · exact h
        · exact hpre s hs
      · rintro ⟨pre, post, hl, hf, hpre⟩
        cases pre with
        | nil =>
          have ha : a = f := (List.cons.inj hl).1
          exact absurd (ha ▸ hf) h
        | cons b pre =>
          exact ⟨pre, post, (List.cons.inj hl).2, hf, fun s hs => hpre s (by simp [hs])⟩

/-- C20: `findTraceStatFrom` returns nil exactly when no record of the "from" snapshot has
the raw identity of the "to" record, and otherwise returns the first record, in stored
order, whose raw identity equals it. -/
theorem findTraceStatFrom_first_match {F : Type} (tsFrom : TraceStats F)
    (sTo : ScenarioStat F) :
    (findTraceStatFrom tsFrom sTo = none ↔
        ∀ s ∈ tsFrom.ScenarioStats, s.TraceUriMethodStatus ≠ sTo.TraceUriMethodStatus) ∧
      ∀ f, findTraceStatFrom tsFrom sTo = some f ↔
        ∃ pre post, tsFrom.ScenarioStats = pre ++ f :: post ∧
          f.TraceUriMethodStatus = sTo.TraceUriMethodStatus ∧
          ∀ s ∈ pre, s.TraceUriMethodStatus ≠ sTo.TraceUriMethodStatus :=
  ⟨findTraceStatFromLoop_none sTo tsFrom.ScenarioStats,
    fun f => findTraceStatFromLoop_some sTo tsFrom.ScenarioStats f⟩

/-! ## Footers -/

theorem foldl_snoc_ite_eq_map (c : String → Prop) [DecidablePred c] (a b : String)
    (ks : List String) (acc : List String) :
    ks.foldl (fun line kw => if c kw then line ++ [a] else line ++ [b]) acc =
      acc ++ ks.map (fun kw => if c kw then a else b) := by
  induction ks generalizing acc with
  | nil => simp
  | cons k ks ih =>
    rw [List.foldl_cons, ih]
    by_cases h : c k <;> simp [h]

/-- C13: `GenerateTraceFooter` and `GenerateTraceFooterWithDiff` return one cell per keyword;
the cell of every keyword other than `count` is empty; the cell of `count` is the decimal
total `counts["count"]`, respectively `formattedLineWithDiff` of the decimal total of the
"to" snapshot and the `count` entry of `DiffCountAll(countsFrom, countsTo)`. -/
theorem GenerateTraceFooter_cells {F : Type} (E : Deps F) (p : TracePrinter)
    (counts countsFrom countsTo : CountMap) :
    p.GenerateTraceFooter counts =
        p.keywords.map (fun kw => if kw = "count" then fmtD (counts.get "count") else "") ∧
      p.GenerateTraceFooterWithDiff E countsFrom countsTo =
        p.keywords.map (fun kw =>
          if kw = "count" then
            E.formattedLineWithDiff (fmtD (countsTo.get "count"))
              ((E.DiffCountAll countsFrom countsTo).get "count")
          else "") ∧
      (p.GenerateTraceFooter counts).length = p.keywords.length ∧
      (p.GenerateTraceFooterWithDiff E countsFrom countsTo).length = p.keywords.length := by
  have h1 : p.GenerateTraceFooter counts =
      p.keywords.map (fun kw => if kw = "count" then fmtD (counts.get "count") else "") := by
    unfold TracePrinter.GenerateTraceFooter
    rw [foldl_snoc_ite_eq_map (fun kw => kw = "count")]
    simp
  have h2 : p.GenerateTraceFooterWithDiff E countsFrom countsTo =
      p.keywords.map (fun kw =>
        if kw = "count" then
          E.formattedLineWithDiff (fmtD (countsTo.get "count"))
            ((E.DiffCountAll countsFrom countsTo).get "count")
        else "") := by
    unfold TracePrinter.GenerateTraceFooterWithDiff
    simp only []
    rw [foldl_snoc_ite_eq_map (fun kw => kw = "count")]
    simp
  refine ⟨h1, h2, ?_, ?_⟩
  · rw [h1, List.length_map]
  · rw [h2, List.length_map]

/-! ## Rows handed to the renderers -/

theorem foldl_Append {α : Type} (g : α → List String) (l : List α) (t : Table) :
    l.foldl (fun (table : Table) x => table.Append (g x)) t =
      { t with rows := t.rows ++ l.map g } := by
  induction l generalizing t with
  | nil => simp
  | cons x l ih =>
    rw [List.foldl_cons, ih]
    simp [Table.Append]

theorem diffRowOf_cases {F : Type} (E : Deps F) (p : TracePrinter) (tsFrom : TraceStats F)
    (sTo : ScenarioStat F) :
    (∃ f ∈ tsFrom.ScenarioStats,
        f.TraceUriMethodStatus = sTo.TraceUriMethodStatus ∧
        diffRowOf E p tsFrom sTo = p.GenerateTraceLineWithDiff E f sTo false) ∨
      ((∀ f ∈ tsFrom.ScenarioStats, f.TraceUriMethodStatus ≠ sTo.TraceUriMethodStatus) ∧
        diffRowOf E p tsFrom sTo = p.GenerateTraceLine E sTo false) := by
  unfold diffRowOf
  cases h : findTraceStatFrom tsFrom sTo with
  | none =>
    right
    exact ⟨(findTraceStatFromLoop_none sTo tsFrom.ScenarioStats).mp h, rfl⟩
  | some f =>
    left
    obtain ⟨pre, post, hl, hf, -⟩ := (findTraceStatFromLoop_some sTo tsFrom.ScenarioStats f).mp h
    exact ⟨f, by rw [hl]; simp, hf, rfl⟩

theorem printTraceTable_rows {F : Type} (E : Deps F) (p : TracePrinter)
    (tsFrom tsTo : TraceStats F) :
    (p.printTraceTable E tsFrom (some tsTo)).rows =
      tsTo.ScenarioStats.map (diffRowOf E p tsFrom) := by
  have h := foldl_Append (diffRowOf E p tsFrom) tsTo.ScenarioStats
    { tablewriterNewWriter with autoWrapText := false, header := p.headers }
  unfold TracePrinter.printTraceTable
  by_cases hf : p.printOptions.showFooters = true
  · simp only [hf, if_true]
    show (tsTo.ScenarioStats.foldl (fun (table : Table) x => table.Append (diffRowOf E p tsFrom x))
      { tablewriterNewWriter with autoWrapText := false, header := p.headers }).rows = _
    rw [h]
    simp [tablewriterNewWriter]
  · simp only [hf]
    show (tsTo.ScenarioStats.foldl (fun (table : Table) x => table.Append (diffRowOf E p tsFrom x))
      { tablewriterNewWriter with autoWrapText := false, header := p.headers }).rows = _
    rw [h]
    simp [tablewriterNewWriter]

theorem printTraceMarkdown_rows {F : Type} (E : Deps F) (p : TracePrinter)
    (tsFrom tsTo : TraceStats F) :
    (p.printTraceMarkdown E tsFrom (some tsTo)).rows =
      tsTo.ScenarioStats.map (diffRowOf E p tsFrom) ++
        (if p.printOptions.showFooters = true then
          [p.GenerateTraceFooterWithDiff E tsFrom.CountAll tsTo.CountAll]
        else []) := by
  have h := foldl_Append (diffRowOf E p tsFrom) tsTo.ScenarioStats
    { tablewriterNewWriter with header := p.headers, autoWrapText := false, autoMergeCells := true, markdownBorders := true, centerSeparator := "|" }
  unfold TracePrinter.printTraceMarkdown
  by_cases hf : p.printOptions.showFooters = true
  · simp only [hf, if_true]
    show ((tsTo.ScenarioStats.foldl
      (fun (table : Table) x => table.Append (diffRowOf E p tsFrom x))
      { tablewriterNewWriter with header := p.headers, autoWrapText := false, autoMergeCells := true, markdownBorders := true, centerSeparator := "|" }).Append
        (p.GenerateTraceFooterWithDiff E tsFrom.CountAll tsTo.CountAll)).rows = _
    rw [h]
    simp [tablewriterNewWriter, Table.Append]
  · simp only [hf]
    show (tsTo.ScenarioStats.foldl
      (fun (table : Table) x => table.Append (diffRowOf E p tsFrom x))
      { tablewriterNewWriter with header := p.headers, autoWrapText := false, autoMergeCells := true, markdownBorders := true, centerSeparator := "|" }).rows = _
    rw [h]
    simp [tablewriterNewWriter]

theorem printTraceTSV_lines {F : Type} (E : Deps F) (p : TracePrinter)
    (tsFrom tsTo : TraceStats F) :
    p.printTraceTSV E tsFrom (some tsTo) =
      (if (!p.printOptions.noHeaders) = true then [stringsJoin p.headers "\t"] else []) ++
        tsTo.ScenarioStats.map (fun sTo => stringsJoin (diffRowOf E p tsFrom sTo) "\t") :=
  foldl_snoc_eq_map (fun sTo => stringsJoin (diffRowOf E p tsFrom sTo) "\t")
    tsTo.ScenarioStats _

theorem printTraceCSV_lines {F : Type} (E : Deps F) (p : TracePrinter)
    (tsFrom tsTo : TraceStats F) :
    p.printTraceCSV E tsFrom (some tsTo) =
      (if (!p.printOptions.noHeaders) = true then [stringsJoin p.headers ","] else []) ++
        tsTo.ScenarioStats.map (fun sTo => stringsJoin (diffRowOf E p tsFrom sTo) ",") :=
  foldl_snoc_eq_map (fun sTo => stringsJoin (diffRowOf E p tsFrom sTo) ",")
    tsTo.ScenarioStats _

theorem printTraceCSV_lines_single {F : Type} (E : Deps F) (p : TracePrinter)
    (tsFrom : TraceStats F) :
    p.printTraceCSV E tsFrom none =
      (if (!p.printOptions.noHeaders) = true then [stringsJoin p.headers ","] else []) ++
        tsFrom.ScenarioStats.map (fun s => stringsJoin (p.GenerateTraceLine E s true) ",") :=
  foldl_snoc_eq_map (fun s => stringsJoin (p.GenerateTraceLine E s true) ",")
    tsFrom.ScenarioStats _

theorem printTraceTSV_lines_single {F : Type} (E : Deps F) (p : TracePrinter)
    (tsFrom : TraceStats F) :
    p.printTraceTSV E tsFrom none =
      (if (!p.printOptions.noHeaders) = true then [stringsJoin p.headers "\t"] else []) ++
        tsFrom.ScenarioStats.map (fun s => stringsJoin (p.GenerateTraceLine E s false) "\t") :=
  foldl_snoc_eq_map (fun s => stringsJoin (p.GenerateTraceLine E s false) "\t")
    tsFrom.ScenarioStats _

theorem printTraceHTML_data {F : Type} (E : Deps F) (p : TracePrinter)
    (tsFrom tsTo : TraceStats F) :
    (p.printTraceHTML E tsFrom (some tsTo)).data =
      tsTo.ScenarioStats.map (diffRowOf E p tsFrom) := by
  have h := foldl_snoc_eq_map (diffRowOf E p tsFrom) tsTo.ScenarioStats []
  rw [List.nil_append] at h
  rw [← h]
  show tsTo.ScenarioStats.foldl _ [] = tsTo.ScenarioStats.foldl _ []
  congr 1
  funext data sTo
  unfold diffRowOf
  cases findTraceStatFrom tsFrom sTo <;> rfl

/-! ## Identity quoting in the CSV and TSV renderers -/

/-- C11 (the code departs from the claim): with the single keyword `uri_method_status`, the
CSV renderer given a from/to pair prints for a "to" record the unquoted result of
`UriWithOptions`, whatever the raw identity holds and whether or not a "from" record matches,
because both row generators are called with the quote flag unset; given a single snapshot
it prints the raw identity between double quotes when it holds a comma. The TSV renderer
never quotes. -/
theorem printTraceCSV_pair_unquoted {F : Type} (E : Deps F) (p : TracePrinter)
    (tsFrom : TraceStats F) (s : ScenarioStat F) (counts : CountMap) :
    ({ p with keywords := ["uri_method_status"] }).printTraceCSV E tsFrom
        (some { ScenarioStats := [s], CountAll := counts }) =
      (if (!p.printOptions.noHeaders) = true then [stringsJoin p.headers ","] else []) ++
        [s.UriWithOptions p.printOptions.decodeUri] ∧
    ({ p with keywords := ["uri_method_status"] }).printTraceCSV E
        { ScenarioStats := [s], CountAll := counts } none =
      (if (!p.printOptions.noHeaders) = true then [stringsJoin p.headers ","] else []) ++
        [if ',' ∈ s.TraceUriMethodStatus.data then "\"" ++ s.TraceUriMethodStatus ++ "\""
          else s.UriWithOptions p.printOptions.decodeUri] ∧
    ({ p with keywords := ["uri_method_status"] }).printTraceTSV E tsFrom
        (some { ScenarioStats := [s], CountAll := counts }) =
      (if (!p.printOptions.noHeaders) = true then [stringsJoin p.headers "\t"] else []) ++
        [s.UriWithOptions p.printOptions.decodeUri] ∧
    ({ p with keywords := ["uri_method_status"] }).printTraceTSV E
        { ScenarioStats := [s], CountAll := counts } none =
      (if (!p.printOptions.noHeaders) = true then [stringsJoin p.headers "\t"] else []) ++
        [s.UriWithOptions p.printOptions.decodeUri] := by
  have hplain : ∀ q : Bool, traceLineStep E p s q [] "uri_method_status" =
      [if q = true ∧ ',' ∈ s.TraceUriMethodStatus.data then
          "\"" ++ s.TraceUriMethodStatus ++ "\""
        else s.UriWithOptions p.printOptions.decodeUri] := by
    intro q
    unfold traceLineStep
    simp only [String.reduceEq, if_false, if_true, List.nil_append, Bool.and_eq_true,
      stringsContains_comma, sprintfQuoted]
  have hdiff : ∀ d : TraceDiffer, traceLineWithDiffStep E p d s false [] "uri_method_status" =
      [s.UriWithOptions p.printOptions.decodeUri] := by
    intro d
    unfold traceLineWithDiffStep
    simp
  have hrow : diffRowOf E { p with keywords := ["uri_method_status"] } tsFrom s =
      [s.UriWithOptions p.printOptions.decodeUri] := by
    unfold diffRowOf
    cases findTraceStatFrom tsFrom s with
    | none =>
      show traceLineStep E p s false [] "uri_method_status" = _
      rw [hplain false]
      simp
    | some f =>
      show traceLineWithDiffStep E p (E.NewTraceDiffer f s) s false [] "uri_method_status" = _
      exact hdiff _
  have hjoin : ∀ (x sep : String), stringsJoin [x] sep = x := by
    intro x sep
    simp [stringsJoin, String.intercalate, String.intercalate.go]
  refine ⟨?_, ?_, ?_, ?_⟩
  · rw [printTraceCSV_lines]
    simp only [List.map_cons, List.map_nil, hrow, hjoin]
  · rw [printTraceCSV_lines_single]
    simp only [List.map_cons, List.map_nil]
    have : ({ p with keywords := ["uri_method_status"] }).GenerateTraceLine E s true =
        traceLineStep E p s true [] "uri_method_status" := rfl
    rw [this, hplain true, hjoin]
    simp
  · rw [printTraceTSV_lines]
    simp only [List.map_cons, List.map_nil, hrow, hjoin]
  · rw [printTraceTSV_lines_single]
    simp only [List.map_cons, List.map_nil]
    have : ({ p with keywords := ["uri_method_status"] }).GenerateTraceLine E s false =
        traceLineStep E p s false [] "uri_method_status" := rfl
    rw [this, hplain false, hjoin]
    simp

/-! ## Row selection when a "to" snapshot is given -/

theorem rowForRecord_false {F : Type} (E : Deps F) (p : TracePrinter)
    (tsFrom : TraceStats F) : rowForRecord E p tsFrom false = diffRowOf E p tsFrom := by
  funext sTo
  unfold rowForRecord diffRowOf
  cases findTraceStatFrom tsFrom sTo <;> rfl

theorem rowForRecord_cases {F : Type} (E : Deps F) (p : TracePrinter) (tsFrom : TraceStats F)
    (quoteUri : Bool) (sTo : ScenarioStat F) :
    (∃ f ∈ tsFrom.ScenarioStats,
        f.TraceUriMethodStatus = sTo.TraceUriMethodStatus ∧
        rowForRecord E p tsFrom quoteUri sTo =
          p.GenerateTraceLineWithDiff E f sTo quoteUri) ∨
      ((∀ f ∈ tsFrom.ScenarioStats, f.TraceUriMethodStatus ≠ sTo.TraceUriMethodStatus) ∧
        rowForRecord E p tsFrom quoteUri sTo = p.GenerateTraceLine E sTo quoteUri) := by
  unfold rowForRecord
  cases h : findTraceStatFrom tsFrom sTo with
  | none =>
    right
    exact ⟨(findTraceStatFromLoop_none sTo tsFrom.ScenarioStats).mp h, rfl⟩
  | some f =>
    left
    obtain ⟨pre, post, hl, hf, -⟩ := (findTraceStatFromLoop_some sTo tsFrom.ScenarioStats f).mp h
    exact ⟨f, by rw [hl]; simp, hf, rfl⟩

/-- C12: when a "to" snapshot is given, the rows the table, markdown, TSV, CSV and HTML
renderers build from the records are one per record of the "to" snapshot, in its stored
order: the rows of the table, the first `len(to)` rows of the markdown table (after which
only the footer may follow), the lines of the TSV and CSV renderers after the header line,
and the data of the HTML renderer. The row of a "to" record is
`GenerateTraceLineWithDiff(f, to)` for a record `f` of the "from" snapshot with the same raw
identity when there is one, and `GenerateTraceLine(to)` otherwise, so a record that occurs
only in "from" has no row. The table, markdown and TSV renderers build the rows with the
quote flag unset. -/
theorem renderers_rows_follow_to {F : Type} (E : Deps F) (p : TracePrinter)
    (tsFrom tsTo : TraceStats F) :
    (p.printTraceTable E tsFrom (some tsTo)).rows =
        tsTo.ScenarioStats.map (rowForRecord E p tsFrom false) ∧
      (p.printTraceMarkdown E tsFrom (some tsTo)).rows.take tsTo.ScenarioStats.length =
        tsTo.ScenarioStats.map (rowForRecord E p tsFrom false) ∧
      (p.printTraceMarkdown E tsFrom (some tsTo)).rows.drop tsTo.ScenarioStats.length =
        (if p.printOptions.showFooters = true then
          [p.GenerateTraceFooterWithDiff E tsFrom.CountAll tsTo.CountAll]
        else []) ∧
      p.printTraceTSV E tsFrom (some tsTo) =
        (if (!p.printOptions.noHeaders) = true then [stringsJoin p.headers "\t"] else []) ++
          tsTo.ScenarioStats.map
            (fun sTo => stringsJoin (rowForRecord E p tsFrom false sTo) "\t") ∧
      (∃ quoteUri : Bool, p.printTraceCSV E tsFrom (some tsTo) =
        (if (!p.printOptions.noHeaders) = true then [stringsJoin p.headers ","] else []) ++
          tsTo.ScenarioStats.map
            (fun sTo => stringsJoin (rowForRecord E p tsFrom quoteUri sTo) ",")) ∧
      (∃ quoteUri : Bool, (p.printTraceHTML E tsFrom (some tsTo)).data =
        tsTo.ScenarioStats.map (rowForRecord E p tsFrom quoteUri)) ∧
      ∀ (quoteUri : Bool) (sTo : ScenarioStat F),
        (∃ f ∈ tsFrom.ScenarioStats,
            f.TraceUriMethodStatus = sTo.TraceUriMethodStatus ∧
            rowForRecord E p tsFrom quoteUri sTo =
              p.GenerateTraceLineWithDiff E f sTo quoteUri) ∨
          ((∀ f ∈ tsFrom.ScenarioStats,
              f.TraceUriMethodStatus ≠ sTo.TraceUriMethodStatus) ∧
            rowForRecord E p tsFrom quoteUri sTo = p.GenerateTraceLine E sTo quoteUri) := by
  have hlen : (tsTo.ScenarioStats.map (diffRowOf E p tsFrom)).length =
      tsTo.ScenarioStats.length := List.length_map _ _
  refine ⟨?_, ?_, ?_, ?_, ⟨false, ?_⟩, ⟨false, ?_⟩,
    fun quoteUri sTo => rowForRecord_cases E p tsFrom quoteUri sTo⟩
  · rw [rowForRecord_false]; exact printTraceTable_rows E p tsFrom tsTo
  · rw [rowForRecord_false, printTraceMarkdown_rows, ← hlen, List.take_left]
  · rw [printTraceMarkdown_rows, ← hlen, List.drop_left]
  · rw [rowForRecord_false]; exact printTraceTSV_lines E p tsFrom tsTo
  · rw [rowForRecord_false]; exact printTraceCSV_lines E p tsFrom tsTo
  · rw [rowForRecord_false]; exact printTraceHTML_data E p tsFrom tsTo

/-! ## Dispatch on the format -/

/-- C18: `Print` runs the renderer of its format, `md` and `markdown` running the same
markdown renderer, and runs no renderer exactly when the format is none of the seven tags;
the empty tag and tags differing in letter case are among those. -/
theorem Print_dispatch {F : Type} (E : Deps F) (p : TracePrinter) (ts : TraceStats F)
    (tsTo : Option (TraceStats F)) :
    ({ p with format := "pretty" }).Print E ts tsTo =
        some (Rendered.pretty (p.printTracePretty ts tsTo)) ∧
      ({ p with format := "table" }).Print E ts tsTo =
        some (Rendered.table (p.printTraceTable E ts tsTo)) ∧
      ({ p with format := "md" }).Print E ts tsTo =
        some (Rendered.markdown (p.printTraceMarkdown E ts tsTo)) ∧
      ({ p with format := "markdown" }).Print E ts tsTo =
        some (Rendered.markdown (p.printTraceMarkdown E ts tsTo)) ∧
      ({ p with format := "tsv" }).Print E ts tsTo =
        some (Rendered.tsv (p.printTraceTSV E ts tsTo)) ∧
      ({ p with format := "csv" }).Print E ts tsTo =
        some (Rendered.csv (p.printTraceCSV E ts tsTo)) ∧
      ({ p with format := "html" }).Print E ts tsTo =
        some (Rendered.html (p.printTraceHTML E ts tsTo)) ∧
      (p.Print E ts tsTo = none ↔
        p.format ∉ ["pretty", "table", "md", "markdown", "tsv", "csv", "html"]) ∧
      (∀ tag ∈ ["", "CSV", "Csv", "TSV", "Table", "HTML", "Pretty", "MD", "Markdown", "json"],
        ({ p with format := tag }).Print E ts tsTo = none) := by
  have hnone : ∀ q : TracePrinter, q.Print E ts tsTo = none ↔
      q.format ∉ ["pretty", "table", "md", "markdown", "tsv", "csv", "html"] := by
    intro q
    unfold TracePrinter.Print
    simp only [List.mem_cons, List.mem_singleton, List.not_mem_nil, or_false, not_or]
    by_cases h1 : q.format = "pretty"
    · simp [h1]
    rw [if_neg h1]
    by_cases h2 : q.format = "table"
    · simp [h2]
    rw [if_neg h2]
    by_cases h3 : q.format = "md" ∨ q.format = "markdown"
    · rw [if_pos h3]
      rcases h3 with h3 | h3 <;> simp [h3]
    rw [if_neg h3]
    by_cases h4 : q.format = "tsv"
    · simp [h4]
    rw [if_neg h4]
    by_cases h5 : q.format = "csv"
    · simp [h5]
    rw [if_neg h5]
    by_cases h6 : q.format = "html"
    · simp [h6]
    rw [if_neg h6]
    simp only [not_or] at h3
    simp [h1, h2, h3.1, h3.2, h4, h5, h6]
  refine ⟨?_, ?_, ?_, ?_, ?_, ?_, ?_, hnone p, ?_⟩
  · simp [TracePrinter.Print]; rfl
  · simp [TracePrinter.Print]; rfl
  · simp [TracePrinter.Print]; rfl
  · simp [TracePrinter.Print]; rfl
  · simp [TracePrinter.Print]; rfl
  · simp [TracePrinter.Print]; rfl
  · simp [TracePrinter.Print]; rfl
  · intro tag htag
    rw [hnone]
    simp only [List.mem_cons, List.mem_singleton, List.not_mem_nil, or_false] at htag
    rcases htag with h | h | h | h | h | h | h | h | h | h <;> subst h <;> simp

/-! ## The header mapping agrees with the canonical lists -/

theorem sprintfKey_head (n : Int) : (sprintfKey n).data.head? = some 'p' := by
  simp [sprintfKey, String.data_append]

theorem sprintfKey_ne_static (n : Int) (k : String) (hk : k ∈ staticKeys) :
    sprintfKey n ≠ k := by
  intro h
  have hhead : k.data.head? = some 'p' := by rw [← h]; exact sprintfKey_head n
  revert hhead
  simp only [staticKeys, List.mem_cons, List.mem_singleton, List.not_mem_nil, or_false] at hk
  rcases hk with h | h | h | h | h | h | h | h | h | h | h | h <;> subst h <;> decide

theorem sprintfKey_ne_all (n : Int) : sprintfKey n ≠ "all" := by
  intro h
  have hhead : "all".data.head? = some 'p' := by rw [← h]; exact sprintfKey_head n
  revert hhead
  decide

theorem get?_foldl_set_percentile (ps : List Int) (N : Int) (m : GoMap)
    (h : N ∈ ps ∨ m.get? (sprintfKey N) = some (sprintfHeader N)) :
    (ps.foldl (fun headers p => headers.set (sprintfKey p) (sprintfHeader p)) m).get?
      (sprintfKey N) = some (sprintfHeader N) := by
  induction ps generalizing m with
  | nil =>
    rcases h with h | h
    · simp at h
    · exact h
  | cons p ps ih =>
    rw [List.foldl_cons]
    apply ih
    by_cases hp : sprintfKey p = sprintfKey N
    · right
      have : p = N := sprintfKey_injective hp
      subst this
      simp [GoMap.set, GoMap.get?]
    · rcases h with h | h
      · rcases List.mem_cons.mp h with h | h
        · exact absurd (by rw [h]) hp
        · exact Or.inl h
      · right
        simpa [GoMap.set, GoMap.get?, hp] using h

theorem get?_foldl_set_other (ps : List Int) (k : String) (m : GoMap)
    (h : ∀ n, sprintfKey n ≠ k) :
    (ps.foldl (fun headers p => headers.set (sprintfKey p) (sprintfHeader p)) m).get? k =
      m.get? k := by
  induction ps generalizing m with
  | nil => rfl
  | cons p ps ih =>
    rw [List.foldl_cons, ih]
    simp [GoMap.set, GoMap.get?, h p]

theorem traceHeadersMap_percentile (ps : List Int) (N : Int) (hN : N ∈ ps) :
    (traceHeadersMap ps).get? (sprintfKey N) = some (sprintfHeader N) :=
  get?_foldl_set_percentile ps N _ (Or.inl hN)

theorem traceHeadersMap_static (ps : List Int) (k : String) (hk : k ∈ staticKeys) :
    (traceHeadersMap ps).get? k = staticHeaders.get? k :=
  get?_foldl_set_other ps k _ (fun n => sprintfKey_ne_static n k hk)

theorem traceHeadersMap_canonical (ps : List Int) :
    (traceKeywords ps).map (traceHeadersMap ps).get? = (traceDefaultHeaders ps).map some := by
  rw [traceKeywords_eq, traceDefaultHeaders_eq]
  simp only [List.map_append, List.map_cons, List.map_nil, List.map_map]
  have hs : ∀ k ∈ staticKeys, (traceHeadersMap ps).get? k = staticHeaders.get? k :=
    fun k hk => traceHeadersMap_static ps k hk
  rw [hs "count" (by decide), hs "uri_method_status" (by decide), hs "min" (by decide),
    hs "max" (by decide), hs "sum" (by decide), hs "avg" (by decide), hs "stddev" (by decide),
    hs "min_body" (by decide), hs "max_body" (by decide), hs "sum_body" (by decide),
    hs "avg_body" (by decide), hs "trace_id_sample" (by decide)]
  have hp : ps.map ((traceHeadersMap ps).get? ∘ sprintfKey) = ps.map (some ∘ sprintfHeader) := by
    apply List.map_congr_left
    intro n hn
    exact traceHeadersMap_percentile ps n hn
  rw [hp]
  rfl

theorem intercalate_go_append (sep : String) (l : List String) (acc : String) :
    ∃ t : String, String.intercalate.go acc sep l = acc ++ t := by
  induction l generalizing acc with
  | nil => exact ⟨"", by simp [String.intercalate.go]⟩
  | cons a l ih =>
    obtain ⟨t, ht⟩ := ih (acc ++ sep ++ a)
    refine ⟨sep ++ a ++ t, ?_⟩
    rw [String.intercalate.go, ht]
    simp [String.append_assoc]

theorem stringsJoin_traceKeywords_ne_all (ps : List Int) :
    stringsJoin (traceKeywords ps) "," ≠ "all" := by
  rw [traceKeywords_eq]
  intro h
  obtain ⟨t, ht⟩ := intercalate_go_append ","
    (["uri_method_status", "min", "max", "sum", "avg"] ++ ps.map sprintfKey ++
      ["stddev", "min_body", "max_body", "sum_body", "avg_body", "trace_id_sample"]) "count"
  have h2 : stringsJoin (["count", "uri_method_status", "min", "max", "sum", "avg"] ++
      ps.map sprintfKey ++
      ["stddev", "min_body", "max_body", "sum_body", "avg_body", "trace_id_sample"]) "," =
      "count" ++ t := by
    rw [← ht]
    rfl
  rw [h2] at h
  have h3 := congrArg String.data h
  rw [String.data_append] at h3
  have h4 := congrArg List.head? h3
  have h5 : ("count".data ++ t.data).head? = some 'c' := rfl
  rw [h5] at h4
  revert h4
  decide

theorem all_not_mem_traceKeywords (ps : List Int) : "all" ∉ traceKeywords ps := by
  rw [traceKeywords_eq]
  simp only [List.mem_append, List.mem_map, not_or, not_exists, not_and]
  refine ⟨⟨by decide, fun n _ => sprintfKey_ne_all n⟩, by decide⟩

theorem map_get_of_map_get? (m : GoMap) (ks hs : List String)
    (h : ks.map m.get? = hs.map some) : ks.map m.get = hs := by
  induction ks generalizing hs with
  | nil =>
    cases hs with
    | nil => rfl
    | cons a hs => simp at h
  | cons k ks ih =>
    cases hs with
    | nil => simp at h
    | cons a hs =>
      simp only [List.map_cons, List.cons.injEq] at h
      rw [List.map_cons, ih hs h.2]
      simp [GoMap.get, h.1]

theorem filter_isNone_eq_nil (m : GoMap) (ks hs : List String)
    (h : ks.map m.get? = hs.map some) :
    ks.filter (fun k => (m.get? k).isNone) = [] := by
  rw [List.filter_eq_nil_iff]
  intro k hk
  have hmem : m.get? k ∈ ks.map m.get? := List.mem_map_of_mem _ hk
  rw [h] at hmem
  obtain ⟨a, -, ha⟩ := List.mem_map.mp hmem
  rw [← ha]
  simp

/-- C19: for every percentile list the header mapping sends the canonical keywords, position
by position, to the canonical headers; hence, for a split function that gives the canonical
keywords back from their comma-joined form, selecting them explicitly builds the keywords
and headers of the selection `all` and passes `Validate`. -/
theorem canonical_selection_matches_all (SplitCSV : String → List String) (format : String)
    (ps : List Int) (opts : TracePrintOptions)
    (hsplit : SplitCSV (stringsJoin (traceKeywords ps) ",") = traceKeywords ps) :
    (traceKeywords ps).map (traceHeadersMap ps).get? = (traceDefaultHeaders ps).map some ∧
      (traceKeywords ps).length = (traceDefaultHeaders ps).length ∧
      (NewTracePrinter SplitCSV (stringsJoin (traceKeywords ps) ",") format ps opts).keywords =
        (NewTracePrinter SplitCSV "all" format ps opts).keywords ∧
      (NewTracePrinter SplitCSV (stringsJoin (traceKeywords ps) ",") format ps opts).headers =
        (NewTracePrinter SplitCSV "all" format ps opts).headers ∧
      (NewTracePrinter SplitCSV (stringsJoin (traceKeywords ps) ",") format ps
        opts).Validate = none := by
  have hmap := traceHeadersMap_canonical ps
  have hall : "all" ∉ SplitCSV (stringsJoin (traceKeywords ps) ",") := by
    rw [hsplit]; exact all_not_mem_traceKeywords ps
  rw [NewTracePrinter_plain _ _ _ _ _ (stringsJoin_traceKeywords_ne_all ps) hall,
    NewTracePrinter_all _ _ _ _ _ (Or.inl rfl), hsplit]
  refine ⟨hmap, ?_, rfl, ?_, ?_⟩
  · rw [traceKeywords_length, traceDefaultHeaders_length]
  · exact map_get_of_map_get? _ _ _ hmap
  · rw [Validate_eq]
    simp only [Bool.false_eq_true, if_false]
    rw [if_pos (filter_isNone_eq_nil _ _ _ hmap)]

/-- Witness of C19: percentiles `[50, 99]`, with a repetition and a negative value added. -/
theorem canonical_selection_matches_all_witness :
    SplitCSV (stringsJoin (traceKeywords [50, 99, 50, -3]) ",") =
        traceKeywords [50, 99, 50, -3] ∧
      (traceKeywords [50, 99, 50, -3]).map (traceHeadersMap [50, 99, 50, -3]).get? =
        (traceDefaultHeaders [50, 99, 50, -3]).map some ∧
      (traceKeywords [50, 99, 50, -3]).length = (traceDefaultHeaders [50, 99, 50, -3]).length ∧
      (NewTracePrinter SplitCSV (stringsJoin (traceKeywords [50, 99, 50, -3]) ",") "csv"
        [50, 99, 50, -3] sampleOptions).keywords =
        (NewTracePrinter SplitCSV "all" "csv" [50, 99, 50, -3] sampleOptions).keywords ∧
      (NewTracePrinter SplitCSV (stringsJoin (traceKeywords [50, 99, 50, -3]) ",") "csv"
        [50, 99, 50, -3] sampleOptions).headers =
        (NewTracePrinter SplitCSV "all" "csv" [50, 99, 50, -3] sampleOptions).headers ∧
      (NewTracePrinter SplitCSV (stringsJoin (traceKeywords [50, 99, 50, -3]) ",") "csv"
        [50, 99, 50, -3] sampleOptions).Validate = none :=
  ⟨by decide,
    canonical_selection_matches_all SplitCSV "csv" [50, 99, 50, -3] sampleOptions (by decide)⟩

/-! ## Percentile keywords -/

/-- C15: for a configured percentile `N` (a Go integer, negative or not) selected as the
keyword `p<N>` at any position of a selection without `all`, scanning the keyword with `p%d`
gives `N` back, the keyword resolves to the header `P<N>`, validation passes when the other
keywords resolve, and `GenerateTraceLine` emits `round(PNResponseTime(N))` at that position.
With percentiles `[50, 99]` the selection `count,avg,p99` has the headers `Count, Avg, P99`
and a row of three cells. -/
theorem percentile_keyword_selected {F : Type} (E : Deps F) (SplitCSV : String → List String)
    (val format : String) (ps : List Int) (opts : TracePrintOptions) (s : ScenarioStat F)
    (quoteUri : Bool) (N : Int) (pre post : List String)
    (hN : N ∈ ps) (hint : IsGoInt N) (hval : val ≠ "all")
    (hsplit : SplitCSV val = pre ++ ("p" ++ toString N) :: post)
    (hall : "all" ∉ pre ++ post) :
    sscanfKey ("p" ++ toString N) = some N ∧
      (traceHeadersMap ps).get? ("p" ++ toString N) = some ("P" ++ toString N) ∧
      (NewTracePrinter SplitCSV val format ps opts).headers =
        pre.map (traceHeadersMap ps).get ++ ("P" ++ toString N) ::
          post.map (traceHeadersMap ps).get ∧
      ((∀ k ∈ pre ++ post, (traceHeadersMap ps).get? k ≠ none) →
        (NewTracePrinter SplitCSV val format ps opts).Validate = none) ∧
      (NewTracePrinter SplitCSV val format ps opts).GenerateTraceLine E s quoteUri =
        ({ NewTracePrinter SplitCSV val format ps opts with keywords := pre }).GenerateTraceLine
            E s quoteUri ++ [E.round (s.PNResponseTime N)] ++
          ({ NewTracePrinter SplitCSV val format ps opts with
            keywords := post }).GenerateTraceLine E s quoteUri ∧
      (NewTracePrinter TracePrinterModel.SplitCSV "count,avg,p99" "csv" [50, 99]
        sampleOptions).headers = ["Count", "Avg", "P99"] ∧
      ((NewTracePrinter TracePrinterModel.SplitCSV "count,avg,p99" "csv" [50, 99]
        sampleOptions).GenerateTraceLine sampleDeps (sampleStat "/a GET 200" 120) false).length
        = 3 := by
  have hscan : sscanfKey (sprintfKey N) = some N := sscanfKey_sprintfKey N hint
  have hget : (traceHeadersMap ps).get? (sprintfKey N) = some (sprintfHeader N) :=
    traceHeadersMap_percentile ps N hN
  have hall2 : "all" ∉ SplitCSV val := by
    rw [hsplit]
    intro h
    rcases List.mem_append.mp h with h | h
    · exact hall (List.mem_append.mpr (Or.inl h))
    · rcases List.mem_cons.mp h with h | h
      · exact sprintfKey_ne_all N h.symm
      · exact hall (List.mem_append.mpr (Or.inr h))
  have hplain := NewTracePrinter_plain SplitCSV val format ps opts hval hall2
  refine ⟨hscan, hget, ?_, ?_, ?_, by decide, by decide⟩
  · rw [hplain, hsplit]
    show (pre ++ sprintfKey N :: post).map (traceHeadersMap ps).get = _
    rw [List.map_append, List.map_cons]
    have : (traceHeadersMap ps).get (sprintfKey N) = sprintfHeader N := by
      simp [GoMap.get, hget]
    rw [this]
    rfl
  · intro hres
    rw [hplain, Validate_eq]
    simp only [Bool.false_eq_true, if_false]
    rw [if_pos]
    rw [List.filter_eq_nil_iff]
    intro k hk
    rw [hsplit] at hk
    rcases List.mem_append.mp hk with h | h
    · have := hres k (List.mem_append.mpr (Or.inl h))
      cases hg : (traceHeadersMap ps).get? k with
      | none => exact absurd hg this
      | some v => simp
    · rcases List.mem_cons.mp h with h | h
      · rw [h]
        have : (traceHeadersMap ps).get? ("p" ++ toString N) = some (sprintfHeader N) := hget
        rw [this]
        simp
      · have := hres k (List.mem_append.mpr (Or.inr h))
        cases hg : (traceHeadersMap ps).get? k with
        | none => exact absurd hg this
        | some v => simp
  · rw [hplain]
    show (SplitCSV val).foldl (traceLineStep E _ s quoteUri) [] = _
    rw [hsplit, foldl_step_split (traceLineStep_append E _ s quoteUri)]
    have hstep : ∀ P : TracePrinter, traceLineStep E P s quoteUri [] ("p" ++ toString N) =
        [E.round (s.PNResponseTime N)] := by
      intro P
      have hne : ∀ k ∈ staticKeys, ("p" ++ toString N) ≠ k :=
        fun k hk => sprintfKey_ne_static N k hk
      have hsc : sscanfKey ("p" ++ toString N) = some N := hscan
      unfold traceLineStep
      rw [hsc]
      rw [if_neg (hne _ (by decide)), if_neg (hne _ (by decide)), if_neg (hne _ (by decide)),
        if_neg (hne _ (by decide)), if_neg (hne _ (by decide)), if_neg (hne _ (by decide)),
        if_neg (hne _ (by decide)), if_neg (hne _ (by decide)), if_neg (hne _ (by decide)),
        if_neg (hne _ (by decide)), if_neg (hne _ (by decide)), if_neg (hne _ (by decide))]
      rfl
    rw [hstep]
    rfl

/-- Witness of C15: percentiles `[50, -3]`, the selection `count, p-3 ,avg`. -/
theorem percentile_keyword_selected_witness :
    (-3 : Int) ∈ [(50 : Int), -3] ∧ IsGoInt (-3) ∧ "count, p-3 ,avg" ≠ "all" ∧
      SplitCSV "count, p-3 ,avg" = ["count"] ++ ("p" ++ toString (-3 : Int)) :: ["avg"] ∧
      "all" ∉ ["count"] ++ ["avg"] ∧
      (NewTracePrinter SplitCSV "count, p-3 ,avg" "csv" [50, -3] sampleOptions).headers =
        ["Count", "P-3", "Avg"] ∧
      (NewTracePrinter SplitCSV "count, p-3 ,avg" "csv" [50, -3] sampleOptions).GenerateTraceLine
        sampleDeps (sampleStat "/a GET 200" 120) false = ["120", "-3", "5"] ∧
      sscanfKey ("p" ++ toString (-3 : Int)) = some (-3) :=
  ⟨by decide, by decide, by decide, by decide, by decide, by decide, by decide,
    (percentile_keyword_selected sampleDeps SplitCSV "count, p-3 ,avg" "csv" [50, -3]
      sampleOptions (sampleStat "/a GET 200" 120) false (-3) ["count"] ["avg"] (by decide)
      (by decide) (by decide) (by decide) (by decide)).1⟩

/-! ## Cells of a diff row under the spec's description of the differ -/

/-- C14, over the differ and `formattedLineWithDiff` as the spec describes them: at a numeric
keyword, wherever it stands, `GenerateTraceLineWithDiff` emits the formatted "to" value, then
` (`, the signed difference `to.field - from.field` in the same rounding, then `)`; this holds
for `count`, the nine latency and body columns and every `p<N>` with `N` a Go integer. With
`from.count = 100` and `to.count = 150` the cell is `150 (+50)`. -/
theorem GenerateTraceLineWithDiff_numeric_cell {F : Type} (round : F → String)
    (N : SignedOps F) (p : TracePrinter) (sFrom sTo : ScenarioStat F) (quoteUri : Bool)
    (pre post : List String) :
    (∀ c ∈ [("count", sTo.StrCount, fmtSignedD (sTo.Cnt - sFrom.Cnt)),
          ("min", round sTo.MinResponseTime,
            N.roundSigned (N.sub sTo.MinResponseTime sFrom.MinResponseTime)),
          ("max", round sTo.MaxResponseTime,
            N.roundSigned (N.sub sTo.MaxResponseTime sFrom.MaxResponseTime)),
          ("sum", round sTo.SumResponseTime,
            N.roundSigned (N.sub sTo.SumResponseTime sFrom.SumResponseTime)),
          ("avg", round sTo.AvgResponseTime,
            N.roundSigned (N.sub sTo.AvgResponseTime sFrom.AvgResponseTime)),
          ("stddev", round sTo.StddevResponseTime,
            N.roundSigned (N.sub sTo.StddevResponseTime sFrom.StddevResponseTime)),
          ("min_body", round sTo.MinResponseBodyBytes,
            N.roundSigned (N.sub sTo.MinResponseBodyBytes sFrom.MinResponseBodyBytes)),
          ("max_body", round sTo.MaxResponseBodyBytes,
            N.roundSigned (N.sub sTo.MaxResponseBodyBytes sFrom.MaxResponseBodyBytes)),
          ("sum_body", round sTo.SumResponseBodyBytes,
            N.roundSigned (N.sub sTo.SumResponseBodyBytes sFrom.SumResponseBodyBytes)),
          ("avg_body", round sTo.AvgResponseBodyBytes,
            N.roundSigned (N.sub sTo.AvgResponseBodyBytes sFrom.AvgResponseBodyBytes))],
        ({ p with keywords := pre ++ c.1 :: post }).GenerateTraceLineWithDiff
            (specDeps round N) sFrom sTo quoteUri =
          ({ p with keywords := pre }).GenerateTraceLineWithDiff (specDeps round N)
              sFrom sTo quoteUri ++ [c.2.1 ++ " (" ++ c.2.2 ++ ")"] ++
            ({ p with keywords := post }).GenerateTraceLineWithDiff (specDeps round N)
              sFrom sTo quoteUri) ∧
      (∀ n : Int, IsGoInt n →
        ({ p with keywords := pre ++ ("p" ++ toString n) :: post }).GenerateTraceLineWithDiff
            (specDeps round N) sFrom sTo quoteUri =
          ({ p with keywords := pre }).GenerateTraceLineWithDiff (specDeps round N)
              sFrom sTo quoteUri ++
            [round (sTo.PNResponseTime n) ++ " (" ++
              N.roundSigned (N.sub (sTo.PNResponseTime n) (sFrom.PNResponseTime n)) ++ ")"] ++
            ({ p with keywords := post }).GenerateTraceLineWithDiff (specDeps round N)
              sFrom sTo quoteUri) ∧
      ({ p with keywords := ["count"] }).GenerateTraceLineWithDiff
          (specDeps fmtD sampleSignedOps) (sampleStat "/a GET 200" 100)
          (sampleStat "/a GET 200" 150) quoteUri = ["150 (+50)"] := by
  have hsplit : ∀ (kw : String) (cell : String),
      traceLineWithDiffStep (specDeps round N) p (specNewTraceDiffer N sFrom sTo) sTo quoteUri
        [] kw = [cell] →
      ({ p with keywords := pre ++ kw :: post }).GenerateTraceLineWithDiff
          (specDeps round N) sFrom sTo quoteUri =
        ({ p with keywords := pre }).GenerateTraceLineWithDiff (specDeps round N)
            sFrom sTo quoteUri ++ [cell] ++
          ({ p with keywords := post }).GenerateTraceLineWithDiff (specDeps round N)
            sFrom sTo quoteUri := by
    intro kw cell hcell
    show (pre ++ kw :: post).foldl
      (traceLineWithDiffStep (specDeps round N) p (specNewTraceDiffer N sFrom sTo) sTo quoteUri)
      [] = _
    rw [foldl_step_split (traceLineWithDiffStep_append (specDeps round N) p _ sTo quoteUri),
      hcell]
    rfl
  refine ⟨?_, ?_, ?_⟩
  · intro c hc
    apply hsplit
    simp only [List.mem_cons, List.mem_singleton, List.not_mem_nil, or_false] at hc
    unfold traceLineWithDiffStep
    rcases hc with h | h | h | h | h | h | h | h | h | h <;> subst h <;>
      simp [specDeps, specNewTraceDiffer, specFormattedLineWithDiff]
  · intro n hn
    apply hsplit
    have hne : ∀ k ∈ staticKeys, ("p" ++ toString n) ≠ k :=
      fun k hk => sprintfKey_ne_static n k hk
    have hsc : sscanfKey ("p" ++ toString n) = some n := sscanfKey_sprintfKey n hn
    unfold traceLineWithDiffStep
    rw [hsc]
    rw [if_neg (hne _ (by decide)), if_neg (hne _ (by decide)), if_neg (hne _ (by decide)),
      if_neg (hne _ (by decide)), if_neg (hne _ (by decide)), if_neg (hne _ (by decide)),
      if_neg (hne _ (by decide)), if_neg (hne _ (by decide)), if_neg (hne _ (by decide)),
      if_neg (hne _ (by decide)), if_neg (hne _ (by decide))]
    rfl
  · have h1 : ({ p with keywords := ["count"] }).GenerateTraceLineWithDiff
        (specDeps fmtD sampleSignedOps) (sampleStat "/a GET 200" 100)
        (sampleStat "/a GET 200" 150) quoteUri =
        [specFormattedLineWithDiff (fmtD 150) (fmtSignedD (150 - 100))] := by
      show traceLineWithDiffStep (specDeps fmtD sampleSignedOps) p
        (specNewTraceDiffer sampleSignedOps (sampleStat "/a GET 200" 100)
          (sampleStat "/a GET 200" 150)) (sampleStat "/a GET 200" 150) quoteUri [] "count" = _
      unfold traceLineWithDiffStep
      simp [specDeps, specNewTraceDiffer, sampleStat]
    rw [h1]
    decide

/-! ## Unit scaling: conversion and thresholds -/

theorem float64OfNat_small {v : Nat} (h : v < 2 ^ 53) : float64OfNat v = v := by
  unfold float64OfNat
  rw [if_pos h]

theorem float64OfNat_large {v : Nat} (h : 2 ^ 53 ≤ v) : 2 ^ 53 ≤ float64OfNat v := by
  have hv : v ≠ 0 := by
    intro e; rw [e] at h; exact absurd h (by decide)
  have hlog : 53 ≤ Nat.log2 v := (Nat.le_log2 hv).mpr h
  have hpow : 2 ^ Nat.log2 v ≤ v := Nat.log2_self_le hv
  unfold float64OfNat
  rw [if_neg (Nat.not_lt.mpr h)]
  simp only []
  generalize hk : Nat.log2 v - 52 = k
  have hk1 : 1 ≤ k := by omega
  have hlk : Nat.log2 v = 52 + k := by omega
  have hm : 2 ^ 52 ≤ v / 2 ^ k := by
    rw [Nat.le_div_iff_mul_le (Nat.pos_pow_of_pos k (by decide))]
    calc 2 ^ 52 * 2 ^ k = 2 ^ (52 + k) := (Nat.pow_add 2 52 k).symm
      _ = 2 ^ Nat.log2 v := by rw [hlk]
      _ ≤ v := hpow
  have h2k : 2 ≤ 2 ^ k := by
    calc 2 = 2 ^ 1 := rfl
      _ ≤ 2 ^ k := Nat.pow_le_pow_right (by decide) hk1
  have hm' : 2 ^ 52 ≤
      (if 2 * (v % 2 ^ k) > 2 ^ k ∨ (2 * (v % 2 ^ k) = 2 ^ k ∧ v / 2 ^ k % 2 = 1) then
        v / 2 ^ k + 1 else v / 2 ^ k) := by
    split
    · omega
    · exact hm
  calc 2 ^ 53 = 2 ^ 52 * 2 := rfl
    _ ≤ _ := Nat.mul_le_mul hm' h2k

theorem float64OfNat_ge_iff (v c : Nat) (hc : c ≤ 2 ^ 53) :
    (c : ℚ) ≤ ((float64OfNat v : Nat) : ℚ) ↔ c ≤ v := by
  rw [Nat.cast_le]
  by_cases h : v < 2 ^ 53
  · rw [float64OfNat_small h]
  · have h1 : 2 ^ 53 ≤ v := Nat.not_lt.mp h
    have h2 := float64OfNat_large h1
    constructor
    · intro _; omega
    · intro _; omega

theorem anyToFloat64_nat (v : Nat) :
    ∀ x ∈ [AnyNum.int v, AnyNum.uint v, AnyNum.uint64 v],
      anyToFloat64 x = ((float64OfNat v : Nat) : ℚ) := by
  intro x hx
  simp only [List.mem_cons, List.mem_singleton, List.not_mem_nil, or_false] at hx
  rcases hx with rfl | rfl | rfl
  · simp [anyToFloat64, float64OfInt]
  · rfl
  · rfl

theorem sprintfF_zero : sprintfF 0 0 = "0" := by
  unfold sprintfF
  have h1 : (0 : ℚ).num = 0 := rfl
  have h2 : (0 : ℚ).den = 1 := rfl
  rw [h1, h2]
  decide

theorem sprintfF_two (prec : Nat) : sprintfF prec 2 = fmtFixed prec false 2 1 := by
  unfold sprintfF
  have h1 : (2 : ℚ).num = 2 := rfl
  have h2 : (2 : ℚ).den = 1 := rfl
  rw [h1, h2]
  rfl

theorem shortByte_units_core (v : Nat) :
    ∀ x ∈ [AnyNum.int v, AnyNum.uint v, AnyNum.uint64 v],
      shortByteInt x =
          (if 1024 ^ 3 ≤ v then sprintfF 0 (((float64OfNat v : Nat) : ℚ) / 1024 ^ 3) ++ "G"
          else if 1024 ^ 2 ≤ v then sprintfF 0 ((v : ℚ) / 1024 ^ 2) ++ "M"
          else if 1024 ≤ v then sprintfF 0 ((v : ℚ) / 1024) ++ "k"
          else sprintfF 0 (v : ℚ)) ∧
        shortByte x =
          (if 1024 ^ 3 ≤ v then sprintfF 2 (((float64OfNat v : Nat) : ℚ) / 1024 ^ 3) ++ "G"
          else if 1024 ^ 2 ≤ v then sprintfF 2 ((v : ℚ) / 1024 ^ 2) ++ "M"
          else if 1024 ≤ v then sprintfF 2 ((v : ℚ) / 1024) ++ "k"
          else if v = 0 then "0"
          else sprintfF 2 (v : ℚ)) := by
  intro x hx
  have hf := anyToFloat64_nat v x hx
  have hG : (1024 * 1024 * 1024 : ℚ) ≤ ((float64OfNat v : Nat) : ℚ) ↔ 1024 ^ 3 ≤ v := by
    have := float64OfNat_ge_iff v (1024 ^ 3) (by norm_num)
    rw [← this]
    norm_num
  have hM : (1024 * 1024 : ℚ) ≤ ((float64OfNat v : Nat) : ℚ) ↔ 1024 ^ 2 ≤ v := by
    have := float64OfNat_ge_iff v (1024 ^ 2) (by norm_num)
    rw [← this]
    norm_num
  have hK : (1024 : ℚ) ≤ ((float64OfNat v : Nat) : ℚ) ↔ 1024 ≤ v := by
    have := float64OfNat_ge_iff v 1024 (by norm_num)
    rw [← this]
    norm_num
  unfold shortByteInt shortByte
  simp only [hf, ge_iff_le]
  by_cases h3 : 1024 ^ 3 ≤ v
  · rw [if_pos (hG.mpr h3), if_pos (hG.mpr h3), if_pos h3, if_pos h3]
    norm_num
  · rw [if_neg (fun h => h3 (hG.mp h)), if_neg (fun h => h3 (hG.mp h)), if_neg h3, if_neg h3]
    have hsmall : float64OfNat v = v := float64OfNat_small (by omega)
    by_cases h2 : 1024 ^ 2 ≤ v
    · rw [if_pos (hM.mpr h2), if_pos (hM.mpr h2), if_pos h2, if_pos h2, hsmall]
      norm_num
    · rw [if_neg (fun h => h2 (hM.mp h)), if_neg (fun h => h2 (hM.mp h)), if_neg h2,
        if_neg h2]
      by_cases h1 : 1024 ≤ v
      · rw [if_pos (hK.mpr h1), if_pos (hK.mpr h1), if_pos h1, if_pos h1, hsmall]
        exact ⟨rfl, rfl⟩
      · rw [if_neg (fun h => h1 (hK.mp h)), if_neg (fun h => h1 (hK.mp h)), if_neg h1,
          if_neg h1, hsmall]
        refine ⟨rfl, ?_⟩
        by_cases h0 : v = 0
        · subst h0
          simp [sprintfF_zero]
        · have : ((v : Nat) : ℚ) ≠ 0 := by exact_mod_cast h0
          rw [if_neg this, if_neg h0]

/-- C16: for a non-negative integer byte count `v`, given as `int`, `uint` or `uint64`,
`shortByteInt` and `shortByte` pick the unit by the thresholds `1024^3`, `1024^2` and `1024`
on `v`: suffix `G`, `M` or `k` with the value divided accordingly, no suffix below `1024`,
`shortByte` rendering `0` as `0`; the value formatted is `v` itself whenever `v < 2^53`, and
the `float64` nearest to `v` beyond. For `v = 2147483648` the results are `2G` and `2.00G`. -/
theorem shortByte_units (v : Nat) :
    (∀ x ∈ [AnyNum.int v, AnyNum.uint v, AnyNum.uint64 v],
      shortByteInt x =
          (if 1024 ^ 3 ≤ v then sprintfF 0 (((float64OfNat v : Nat) : ℚ) / 1024 ^ 3) ++ "G"
          else if 1024 ^ 2 ≤ v then sprintfF 0 ((v : ℚ) / 1024 ^ 2) ++ "M"
          else if 1024 ≤ v then sprintfF 0 ((v : ℚ) / 1024) ++ "k"
          else sprintfF 0 (v : ℚ)) ∧
        shortByte x =
          (if 1024 ^ 3 ≤ v then sprintfF 2 (((float64OfNat v : Nat) : ℚ) / 1024 ^ 3) ++ "G"
          else if 1024 ^ 2 ≤ v then sprintfF 2 ((v : ℚ) / 1024 ^ 2) ++ "M"
          else if 1024 ≤ v then sprintfF 2 ((v : ℚ) / 1024) ++ "k"
          else if v = 0 then "0"
          else sprintfF 2 (v : ℚ))) ∧
      (v < 2 ^ 53 → float64OfNat v = v) ∧
      shortByteInt (AnyNum.int 2147483648) = "2G" ∧
      shortByte (AnyNum.int 2147483648) = "2.00G" := by
  have hex := shortByte_units_core 2147483648 (AnyNum.int 2147483648) (by simp)
  have hsmall : float64OfNat 2147483648 = 2147483648 := float64OfNat_small (by norm_num)
  have hratio : (((2147483648 : Nat) : ℚ) / 1024 ^ 3) = 2 := by norm_num
  rw [if_pos (by norm_num), if_pos (by norm_num), hsmall, hratio, sprintfF_two,
    sprintfF_two] at hex
  refine ⟨shortByte_units_core v, fun h => float64OfNat_small h, ?_, ?_⟩
  · rw [hex.1]; decide
  · rw [hex.2]; decide

/-! ## Unit scaling: decimals of the formatted value -/

theorem IsDecChar.digit {c : Char} (h : IsDecChar c) :
    c.isDigit = true ∧ (c != '.') = true := by
  obtain ⟨d, hd, rfl⟩ := h
  interval_cases d <;> decide

theorem decDigits_length_le (k : Nat) : ∀ m, m < 10 ^ (k + 1) → (decDigits m).length ≤ k + 1 := by
  induction k with
  | zero =>
    intro m hm
    rw [decDigits_small (by simpa using hm)]
    simp
  | succ k ih =>
    intro m hm
    by_cases h : m < 10
    · rw [decDigits_small h]; simp
    · rw [decDigits_large h, List.length_append, List.length_singleton]
      have : m / 10 < 10 ^ (k + 1) := by
        rw [Nat.div_lt_iff_lt_mul (by decide)]
        calc m < 10 ^ (k + 1 + 1) := hm
          _ = 10 ^ (k + 1) * 10 := Nat.pow_succ _ _
      have := ih (m / 10) this
      omega

theorem dropWhile_append_of_all {p : Char → Bool} (l1 l2 : List Char)
    (h : ∀ c ∈ l1, p c = true) : (l1 ++ l2).dropWhile p = l2.dropWhile p := by
  induction l1 with
  | nil => rfl
  | cons a l1 ih =>
    rw [List.cons_append, List.dropWhile_cons, h a (by simp)]
    exact ih (fun c hc => h c (by simp [hc]))

theorem takeWhile_append_of_all {p : Char → Bool} (l1 l2 : List Char)
    (h : ∀ c ∈ l1, p c = true) (h2 : l2.takeWhile p = []) :
    (l1 ++ l2).takeWhile p = l1 := by
  induction l1 with
  | nil => simpa using h2
  | cons a l1 ih =>
    rw [List.cons_append, List.takeWhile_cons, h a (by simp)]
    simp only [if_true, List.cons.injEq, true_and]
    exact ih (fun c hc => h c (by simp [hc]))

theorem natString_chars (n : Nat) : ∀ c ∈ (toString n).data, IsDecChar c := by
  rw [toString_nat_data]; exact decDigits_chars n

theorem padZeros_chars (w : Nat) (n : Nat) :
    ∀ c ∈ padZeros w (toString n).data, c.isDigit = true := by
  intro c hc
  unfold padZeros at hc
  rcases List.mem_append.mp hc with h | h
  · rw [List.eq_of_mem_replicate h]; decide
  · exact (natString_chars n c h).digit.1

theorem padZeros_length (k n : Nat) (h : n < 10 ^ (k + 1)) :
    (padZeros (k + 1) (toString n).data).length = k + 1 := by
  unfold padZeros
  rw [List.length_append, List.length_replicate, toString_nat_data]
  have := decDigits_length_le k n h
  omega

/-- Decimals of a value formatted without decimals and followed by a unit without `.`. -/
theorem decimalPlaces_fmtFixed_zero (neg : Bool) (num den : Nat) (unit : String)
    (hu : ∀ c ∈ unit.data, (c != '.') = true) :
    decimalPlaces (fmtFixed 0 neg num den ++ unit) = 0 := by
  unfold decimalPlaces fmtFixed
  simp only [if_true, pow_zero, Nat.div_one]
  have hall : ∀ (n : Nat), ∀ c ∈ ((if neg = true then "-" ++ toString n else toString n) ++
      unit).data, (c != '.') = true := by
    intro n c hc
    rw [String.data_append] at hc
    rcases List.mem_append.mp hc with h | h
    · cases neg with
      | true =>
        simp only [if_true, String.data_append] at h
        rcases List.mem_append.mp h with h | h
        · have : c = '-' := by simpa using h
          rw [this]; decide
        · exact (natString_chars n c h).digit.2
      | false =>
        simp only [Bool.false_eq_true, if_false] at h
        exact (natString_chars n c h).digit.2
    · exact hu c h
  generalize (if 2 * (num * 1 % den) > den ∨ 2 * (num * 1 % den) = den ∧ num * 1 / den % 2 = 1
    then num * 1 / den + 1 else num * 1 / den) = n
  have hdrop := dropWhile_append_of_all
    ((if neg = true then "-" ++ toString n else toString n) ++ unit).data [] (hall n)
  rw [List.append_nil] at hdrop
  rw [hdrop]
  rfl

/-- Decimals of a value formatted with `k + 1` decimals and followed by a unit that does not
start with a digit. -/
theorem decimalPlaces_fmtFixed_succ (k : Nat) (neg : Bool) (num den : Nat) (unit : String)
    (hu : unit.data.takeWhile Char.isDigit = []) :
    decimalPlaces (fmtFixed (k + 1) neg num den ++ unit) = k + 1 := by
  unfold decimalPlaces fmtFixed
  simp only [Nat.add_one_ne_zero, if_false]
  generalize (if 2 * (num * 10 ^ (k + 1) % den) > den ∨
      2 * (num * 10 ^ (k + 1) % den) = den ∧ num * 10 ^ (k + 1) / den % 2 = 1 then
      num * 10 ^ (k + 1) / den + 1 else num * 10 ^ (k + 1) / den) = n
  have hfrac : n % 10 ^ (k + 1) < 10 ^ (k + 1) := Nat.mod_lt _ (Nat.pos_pow_of_pos _ (by decide))
  have hdata : ((if neg = true then
        "-" ++ (toString (n / 10 ^ (k + 1)) ++ "." ++
          String.mk (padZeros (k + 1) (toString (n % 10 ^ (k + 1))).data))
      else toString (n / 10 ^ (k + 1)) ++ "." ++
          String.mk (padZeros (k + 1) (toString (n % 10 ^ (k + 1))).data)) ++ unit).data =
      ((if neg = true then ['-'] else []) ++ (toString (n / 10 ^ (k + 1))).data) ++
        ('.' :: (padZeros (k + 1) (toString (n % 10 ^ (k + 1))).data ++ unit.data)) := by
    cases neg <;> simp [String.data_append]
  rw [hdata, dropWhile_append_of_all]
  · rw [List.dropWhile_cons]
    simp only [bne_self_eq_false, Bool.false_eq_true, if_false]
    rw [takeWhile_append_of_all _ _ (padZeros_chars _ _) hu, padZeros_length k _ hfrac]
  · intro c hc
    rcases List.mem_append.mp hc with h | h
    · cases neg with
      | true =>
        have : c = '-' := by simpa using h
        rw [this]; decide
      | false => simp at h
    · exact (natString_chars _ c h).digit.2

theorem decimalPlaces_sprintfF_zero (f : ℚ) (unit : String)
    (hu : ∀ c ∈ unit.data, (c != '.') = true) :
    decimalPlaces (sprintfF 0 f ++ unit) = 0 :=
  decimalPlaces_fmtFixed_zero _ _ _ unit hu

theorem decimalPlaces_sprintfF_succ (k : Nat) (f : ℚ) (unit : String)
    (hu : unit.data.takeWhile Char.isDigit = []) :
    decimalPlaces (sprintfF (k + 1) f ++ unit) = k + 1 :=
  decimalPlaces_fmtFixed_succ k _ _ _ unit hu

theorem lit_order : lit1eMinus9 < lit1eMinus6 ∧ lit1eMinus6 < lit1eMinus3 ∧ lit1eMinus3 < 1 := by
  unfold lit1eMinus9 lit1eMinus6 lit1eMinus3
  refine ⟨?_, ?_, ?_⟩ <;> norm_num

theorem shortTime_units_core (fmul : ℚ → ℚ → ℚ) (v : AnyNum) :
    (anyToFloat64 v < lit1eMinus9 →
        shortTime fmul v = sprintfF 0 (anyToFloat64 v) ∧
          decimalPlaces (shortTime fmul v) = 0) ∧
      (lit1eMinus9 ≤ anyToFloat64 v → anyToFloat64 v < lit1eMinus6 →
        shortTime fmul v = sprintfF 1 (fmul (anyToFloat64 v) 1000000000) ++ "ns" ∧
          decimalPlaces (shortTime fmul v) = 1) ∧
      (lit1eMinus6 ≤ anyToFloat64 v → anyToFloat64 v < lit1eMinus3 →
        shortTime fmul v = sprintfF 1 (fmul (anyToFloat64 v) 1000000) ++ "us" ∧
          decimalPlaces (shortTime fmul v) = 1) ∧
      (lit1eMinus3 ≤ anyToFloat64 v → anyToFloat64 v < 1 →
        shortTime fmul v = sprintfF 1 (fmul (anyToFloat64 v) 1000) ++ "ms" ∧
          decimalPlaces (shortTime fmul v) = 1) ∧
      (1 ≤ anyToFloat64 v →
        shortTime fmul v = sprintfF 2 (anyToFloat64 v) ++ "s" ∧
          decimalPlaces (shortTime fmul v) = 2) := by
  obtain ⟨h96, h63, h31⟩ := lit_order
  generalize hf : anyToFloat64 v = f
  have hdef : shortTime fmul v =
      if f < lit1eMinus9 then sprintfF 0 f
      else if f < lit1eMinus6 then sprintfF 1 (fmul f 1000000000) ++ "ns"
      else if f < lit1eMinus3 then sprintfF 1 (fmul f 1000000) ++ "us"
      else if f < 1 then sprintfF 1 (fmul f 1000) ++ "ms"
      else sprintfF 2 f ++ "s" := by
    unfold shortTime
    rw [hf]
  have h0 : ∀ x : ℚ, decimalPlaces (sprintfF 0 x) = 0 := by
    intro x
    have := decimalPlaces_sprintfF_zero x "" (by simp)
    simpa using this
  refine ⟨?_, ?_, ?_, ?_, ?_⟩
  · intro h
    rw [hdef, if_pos h]
    exact ⟨rfl, h0 f⟩
  · intro h1 h2
    rw [hdef, if_neg (not_lt.mpr h1), if_pos h2]
    exact ⟨rfl, decimalPlaces_sprintfF_succ 0 _ "ns" (by decide)⟩
  · intro h1 h2
    rw [hdef, if_neg (not_lt.mpr (le_trans (le_of_lt h96) h1)), if_neg (not_lt.mpr h1),
      if_pos h2]
    exact ⟨rfl, decimalPlaces_sprintfF_succ 0 _ "us" (by decide)⟩
  · intro h1 h2
    have h6 : lit1eMinus6 ≤ f := le_trans (le_of_lt h63) h1
    rw [hdef, if_neg (not_lt.mpr (le_trans (le_of_lt h96) h6)), if_neg (not_lt.mpr h6),
      if_neg (not_lt.mpr h1), if_pos h2]
    exact ⟨rfl, decimalPlaces_sprintfF_succ 0 _ "ms" (by decide)⟩
  · intro h1
    have h3 : lit1eMinus3 ≤ f := le_trans (le_of_lt h31) h1
    have h6 : lit1eMinus6 ≤ f := le_trans (le_of_lt h63) h3
    rw [hdef, if_neg (not_lt.mpr (le_trans (le_of_lt h96) h6)), if_neg (not_lt.mpr h6),
      if_neg (not_lt.mpr h3), if_neg (not_lt.mpr h1)]
    exact ⟨rfl, decimalPlaces_sprintfF_succ 1 _ "s" (by decide)⟩


/-- C17: for every argument of `shortTime`, with `f` its `float64` value and the thresholds
read as `float64` constants: `f < 1e-9` gives `f` with no decimals and no unit,
`1e-9 <= f < 1e-6` gives `f*1e9` with suffix `ns`, `1e-6 <= f < 1e-3` gives `f*1e6` with
suffix `us`, `1e-3 <= f < 1` gives `f*1e3` with suffix `ms`, and `f >= 1` gives `f` with
suffix `s`; the `ns`, `us` and `ms` forms have one decimal, the form below `1e-9` has none
and the seconds form has two. With the exact product, the value `1/2` gives `500.0ms` and the
integer `2` gives `2.00s`. -/
theorem shortTime_units (fmul : ℚ → ℚ → ℚ) (v : AnyNum) :
    ((anyToFloat64 v < lit1eMinus9 →
        shortTime fmul v = sprintfF 0 (anyToFloat64 v) ∧
          decimalPlaces (shortTime fmul v) = 0) ∧
      (lit1eMinus9 ≤ anyToFloat64 v → anyToFloat64 v < lit1eMinus6 →
        shortTime fmul v = sprintfF 1 (fmul (anyToFloat64 v) 1000000000) ++ "ns" ∧
          decimalPlaces (shortTime fmul v) = 1) ∧
      (lit1eMinus6 ≤ anyToFloat64 v → anyToFloat64 v < lit1eMinus3 →
        shortTime fmul v = sprintfF 1 (fmul (anyToFloat64 v) 1000000) ++ "us" ∧
          decimalPlaces (shortTime fmul v) = 1) ∧
      (lit1eMinus3 ≤ anyToFloat64 v → anyToFloat64 v < 1 →
        shortTime fmul v = sprintfF 1 (fmul (anyToFloat64 v) 1000) ++ "ms" ∧
          decimalPlaces (shortTime fmul v) = 1) ∧
      (1 ≤ anyToFloat64 v →
        shortTime fmul v = sprintfF 2 (anyToFloat64 v) ++ "s" ∧
          decimalPlaces (shortTime fmul v) = 2)) ∧
      shortTime (fun a b => a * b) (AnyNum.float64 (1 / 2)) = "500.0ms" ∧
      shortTime (fun a b => a * b) (AnyNum.int 2) = "2.00s" := by
  refine ⟨shortTime_units_core fmul v, ?_, ?_⟩
  · have h := (shortTime_units_core (fun a b => a * b) (AnyNum.float64 (1 / 2))).2.2.2.1
      (by show lit1eMinus3 ≤ (1 / 2 : ℚ); unfold lit1eMinus3; norm_num)
      (by show (1 / 2 : ℚ) < 1; norm_num)
    rw [h.1]
    have hv : anyToFloat64 (AnyNum.float64 (1 / 2)) * 1000 = 500 := by
      show (1 / 2 : ℚ) * 1000 = 500
      norm_num
    rw [hv]
    have h1 : (500 : ℚ).num = 500 := rfl
    have h2 : (500 : ℚ).den = 1 := rfl
    unfold sprintfF
    rw [h1, h2]
    decide
  · have hf : anyToFloat64 (AnyNum.int 2) = 2 := by
      show float64OfInt 2 = 2
      unfold float64OfInt
      have : float64OfNat (2 : Int).natAbs = 2 := float64OfNat_small (by decide)
      rw [if_neg (by decide), this]
      norm_num
    have h := (shortTime_units_core (fun a b => a * b) (AnyNum.int 2)).2.2.2.2
      (by rw [hf]; norm_num)
    rw [h.1, hf, sprintfF_two]
    decide

end TracePrinterModel
